import Mathlib

/-!
Shallow embedding of the FoundationDB-backed account backend
(`oio/account/backend_fdb.py`) of this repository.

Modelling conventions, read against the Python source:

* Keys and names are byte strings; we model them as `List Nat` (`Bytes`).
  All concrete names used are ASCII, so the UTF-8 encoding of a name is its
  list of code points.
* Logical timestamps (`mtime`, `dtime`) are stored by the source as
  fixed-width decimal strings (`Timestamp(x).normal`) compared byte-wise,
  with `b'0'` as the "never" sentinel; byte-wise comparison of those strings
  agrees with numeric comparison and the sentinel sorts below every normal
  timestamp, so we model timestamps as `Nat` with `0` as the sentinel.
* Counters are stored as 4-byte little-endian cells written with
  `struct.pack('<i', x)` and mutated with the FDB atomic-ADD primitive whose
  operand is also 4 bytes; the stored cell therefore always holds a value in
  `[0, 2^32)`, addition wraps modulo `2^32`, and reads with
  `int.from_bytes(..., 'little')` are unsigned.  `addCell` and `packI32`
  model exactly this.
* Each FDB transaction runs sequentially here; reads through `self.db`
  (the committed database) see the state at transaction start, reads through
  `tr` see the transaction's own writes.  `_update_container` takes the
  committed state `s0` separately for its two `self.db` reads.
-/

abbrev Bytes := List Nat

/-- Byte list of an ASCII string literal. -/
def S (str : String) : Bytes := str.data.map Char.toNat

/-- Membership of a byte string in a list of byte strings (a presence set). -/
def bmem (l : List Bytes) (a : Bytes) : Bool := l.any (fun x => x = a)

def bIns (l : List Bytes) (a : Bytes) : List Bytes := if bmem l a then l else a :: l

def bDel (l : List Bytes) (a : Bytes) : List Bytes := l.filter (fun x => ¬ x = a)

/-- Membership of a key pair in a presence set of pairs. -/
def pmem (l : List (Bytes × Bytes)) (k : Bytes × Bytes) : Bool := l.any (fun x => x = k)

def pIns (l : List (Bytes × Bytes)) (k : Bytes × Bytes) : List (Bytes × Bytes) :=
  if pmem l k then l else k :: l

def pDel (l : List (Bytes × Bytes)) (k : Bytes × Bytes) : List (Bytes × Bytes) :=
  l.filter (fun x => ¬ x = k)

/-- First-match association-list lookup. -/
def aGet {κ β : Type} [DecidableEq κ] : List (κ × β) → κ → Option β
  | [], _ => none
  | p :: t, q => if p.1 = q then some p.2 else aGet t q

/-- Association-list store (replaces any previous binding of the key). -/
def aPut {κ β : Type} [DecidableEq κ] (l : List (κ × β)) (q : κ) (v : β) : List (κ × β) :=
  (q, v) :: l.filter (fun p => ¬ p.1 = q)

/-- Association-list delete (`clear_range_startswith` on one entity's keys). -/
def aDel {κ β : Type} [DecidableEq κ] (l : List (κ × β)) (q : κ) : List (κ × β) :=
  l.filter (fun p => ¬ p.1 = q)

/-- Boolean "is a prefix of" on byte strings (`str.startswith`). -/
def bPref : Bytes → Bytes → Bool
  | [], _ => true
  | _ :: _, [] => false
  | x :: xs, y :: ys => x = y && bPref xs ys

/-- Boolean substring test (`needle in haystack` on Python strings). -/
def hasSub (n : Bytes) : Bytes → Bool
  | [] => bPref n []
  | x :: xs => bPref n (x :: xs) || hasSub n xs

/-- FDB atomic ADD on a 4-byte little-endian cell: little-endian addition of
the stored cell and the packed operand, wrapping at the operand width. -/
def addCell (c : Nat) (i : Int) : Nat := (((c : Int) + i) % 4294967296).toNat

/-- `struct.pack('<i', i)` read back as the unsigned 4-byte cell value;
`none` models the `struct.error` raised outside the int32 range. -/
def packI32 (i : Int) : Option Nat :=
  if -2147483648 ≤ i ∧ i < 2147483648 then some ((i % 4294967296).toNat) else none

def segMark : Bytes := S "+segments"

def shardsPref : Bytes := S ".shards_"

/-- One container row in the `container:` subspace: the fields written by
`_update_container` (`name` presence is row presence; `bucket` is the
optional back-reference key). -/
structure CtRow where
  mtime : Nat
  dtime : Nat
  objects : Nat
  bytes : Nat
  bucket : Option Bytes
  deriving DecidableEq, Repr

/-- One account row in the `account:` subspace. -/
structure AcctRow where
  objects : Nat
  bytes : Nat
  ctime : Nat
  deriving DecidableEq, Repr

/-- One bucket row in the `bucket:` subspace; each field is its own key and
may be absent independently. -/
structure BktRow where
  account : Option Bytes
  objects : Option Nat
  bytes : Option Nat
  mtime : Option Nat
  deriving DecidableEq, Repr

/-- The whole key-value store, one component per namespace of the schema. -/
structure State where
  accts : List Bytes
  acctRows : List (Bytes × AcctRow)
  containers : List ((Bytes × Bytes) × CtRow)
  ctsIndex : List (Bytes × Bytes)
  toDelete : List ((Bytes × Bytes) × Nat)
  buckets : List (Bytes × BktRow)
  bsAcct : List (Bytes × Bytes)
  bsGlobal : List Bytes
  metadataSp : List ((Bytes × Bytes) × Bytes)
  deriving DecidableEq, Repr

def initState : State := ⟨[], [], [], [], [], [], [], [], []⟩

/-- `_create_account`: no-op returning `False` when the account already
exists, otherwise writes the presence flag, zeroed counters and ctime. -/
def _create_account (s : State) (account_id : Bytes) (now : Nat) : Bool × State :=
  if bmem s.accts account_id then (false, s)
  else (true, { s with accts := account_id :: s.accts,
                       acctRows := aPut s.acctRows account_id ⟨0, 0, now⟩ })

/-- `create_account`: outer entry point; `None`/empty ids are rejected before
the transaction, and an existing account yields `None` (silent no-op). -/
def create_account (s : State) (account_id : Option Bytes) (now : Nat) :
    Option Bytes × State :=
  match account_id with
  | none => (none, s)
  | some a =>
    if a = [] then (none, s)
    else
      let r := _create_account s a now
      if r.1 then (some a, r.2) else (none, s)

/-- Atomic add into an account's `objects` cell (absent key treated as 0). -/
def acctAddObjects (s : State) (a : Bytes) (i : Int) : State :=
  let r := (aGet s.acctRows a).getD ⟨0, 0, 0⟩
  { s with acctRows := aPut s.acctRows a { r with objects := addCell r.objects i } }

/-- Atomic add into an account's `bytes` cell (absent key treated as 0). -/
def acctAddBytes (s : State) (a : Bytes) (i : Int) : State :=
  let r := (aGet s.acctRows a).getD ⟨0, 0, 0⟩
  { s with acctRows := aPut s.acctRows a { r with bytes := addCell r.bytes i } }

/-- Lines 739-751: atomic add into the bucket counters when the key is
present; when the key is absent the source only initializes it to 0 (the
increment is not applied). -/
def bucketCountersAdd (s : State) (bname : Bytes) (incO incB : Int) : State :=
  let br := (aGet s.buckets bname).getD ⟨none, none, none, none⟩
  let br1 := { br with objects := match br.objects with
                                  | some v => some (addCell v incO)
                                  | none => some 0 }
  let br2 := { br1 with bytes := match br1.bytes with
                                 | some v => some (addCell v incB)
                                 | none => some 0 }
  { s with buckets := aPut s.buckets bname br2 }

def setBucketMtime (s : State) (bname : Bytes) (m : Nat) : State :=
  let br := (aGet s.buckets bname).getD ⟨none, none, none, none⟩
  { s with buckets := aPut s.buckets bname { br with mtime := some m } }

def setBucketAccount (s : State) (bname : Bytes) (acct : Bytes) : State :=
  let br := (aGet s.buckets bname).getD ⟨none, none, none, none⟩
  { s with buckets := aPut s.buckets bname { br with account := some acct } }

/-- Line 766: write the container's `bucket` back-reference key.  In the only
reachable path (the update branch) the row was just written, so the absent
case cannot occur there; it is kept for totality as a bare key write. -/
def setRowBucket (s : State) (key : Bytes × Bytes) (bname : Bytes) : State :=
  match aGet s.containers key with
  | some r => { s with containers := aPut s.containers key { r with bucket := some bname } }
  | none => { s with containers := aPut s.containers key ⟨0, 0, 0, 0, some bname⟩ }

/-- Arguments of `update_container` after the wrapper's normalisation:
`None` timestamps have become the `0` sentinel and a missing bucket name the
empty string. -/
structure UArgs where
  account : Bytes
  cname : Bytes
  bucket_name : Bytes
  new_mtime : Nat
  new_dtime : Nat
  autocreate_account : Bool
  autocreate_container : Bool
  new_total_objects : Nat
  new_total_bytes : Nat
  deriving DecidableEq, Repr

inductive UpdStatus
  | no_account | no_container | no_update_needed | updatedSt | deletedSt | noneSt
  | packError
  deriving DecidableEq, Repr

/-- Lines 682-689: propagate non-zero deltas to the account counters via
atomic add, skipping zero deltas.  This is the effect for in-range deltas
only: the caller (`afterBranch`) models the `struct.pack('<i', inc)` of each
non-zero operand first and raises (`none`) outside the int32 range. -/
def applyAcctIncs (s : State) (acct : Bytes) (incO incB : Int) : State :=
  let s := if incO ≠ 0 then acctAddObjects s acct incO else s
  if incB ≠ 0 then acctAddBytes s acct incB else s

/-- Lines 708-711: clear the container's `bucket` back-reference key if it is
still present in the transaction's view. -/
def clearRowBucketIfPresent (s : State) (key : Bytes × Bytes) : State :=
  match aGet s.containers key with
  | some r => { s with containers := aPut s.containers key { r with bucket := none } }
  | none => s

/-- Lines 713-721: a deleted root container removes the bucket from both
bucket-listing indices and deletes the bucket row. -/
def bucketRootDelete (s : State) (acct bname : Bytes) : State :=
  { s with bsAcct := pDel s.bsAcct (acct, bname),
           bsGlobal := bDel s.bsGlobal bname,
           buckets := aDel s.buckets bname }

/-- Lines 759-772: set the bucket owner (unless the account is a shard
account), record the container-to-bucket back-reference, and register a root
container's bucket in both bucket-listing indices. -/
def bucketTail (s : State) (acct cname bname : Bytes) : State :=
  let s := if bPref shardsPref acct then s else setBucketAccount s bname acct
  let s := setRowBucket s (acct, cname) bname
  if bname = cname then
    { s with bsAcct := pIns s.bsAcct (acct, bname), bsGlobal := bIns s.bsGlobal bname }
  else s

/-- Lines 682-775 of `_update_container`: account-counter propagation and the
bucket bookkeeping section, entered from the deletion or the update branch.
`s0` is the committed state: line 692 reads the container's `bucket` key
through `self.db`, not through the transaction.  Each non-zero account delta
(lines 683-689) and each bucket delta applied to a present counter key
(lines 739-751) goes through `struct.pack('<i', inc)`, which raises
`struct.error` outside the int32 range: `none` models that uncaught
exception (the transaction aborts, committing nothing).  An absent counter
key is initialised to `struct.pack('<i', 0)` instead (lines 742-744 and
748-750), which never fails; `setBucketMtime` is line 753-754. -/
def bucketUpd (s2 : State) (bname : Bytes) (incO2 incB1 : Int) (mtimeC : Nat) :
    Option State :=
  if ((aGet s2.buckets bname).bind (fun b => b.objects)).isSome ∧ packI32 incO2 = none
    then none
  else if ((aGet s2.buckets bname).bind (fun b => b.bytes)).isSome ∧ packI32 incB1 = none
    then none
  else
    let s3 := bucketCountersAdd s2 bname incO2 incB1
    some (if mtimeC ≠ 0 then setBucketMtime s3 bname mtimeC else s3)

/-- Lines 682-775 of `_update_container`: account-counter propagation and the
bucket bookkeeping section, entered from the deletion or the update branch.
`s0` is the committed state: line 692 reads the container's `bucket` key
through `self.db`, not through the transaction.  Each non-zero account delta
(lines 683-689) goes through `struct.pack('<i', inc)`, which raises
`struct.error` outside the int32 range: `none` models that uncaught
exception (the transaction aborts, committing nothing). -/
def afterBranch (s0 s : State) (a : UArgs) (incO0 incB0 : Int) (mtimeC : Nat)
    (deleted : Bool) : Option (UpdStatus × State) :=
  let key := (a.account, a.cname)
  if incO0 ≠ 0 ∧ packI32 incO0 = none then none
  else if incB0 ≠ 0 ∧ packI32 incB0 = none then none
  else
    let s1 := applyAcctIncs s a.account incO0 incB0
    let currentBucket := (aGet s0.containers key).bind (fun r => r.bucket)
    let bname := if a.bucket_name = [] then currentBucket.getD [] else a.bucket_name
    if bname = [] then some (.updatedSt, s1)
    else
      let incO1 := if currentBucket = none then (a.new_total_objects : Int) else incO0
      let incB1 := if currentBucket = none then (a.new_total_bytes : Int) else incB0
      let s2 := if deleted then clearRowBucketIfPresent s1 key else s1
      if deleted ∧ bname = a.cname then some (.noneSt, bucketRootDelete s2 a.account bname)
      else
        let incO2 := if hasSub segMark a.cname then 0 else incO1
        (bucketUpd s2 bname incO2 incB1 mtimeC).map fun s4 =>
          if deleted then (.deletedSt, s4)
          else (.updatedSt, bucketTail s4 a.account a.cname bname)

/-- Lines 640-775: staleness check, candidate timestamps, deletion branch
(clear row and forward index, write the pending-delete marker) and update
branch (overwrite the row), then `afterBranch`.  `r` is the loaded row, or
the `("0","0",0,0)` defaults for a new row.  The update branch writes the
new totals with `struct.pack('<i', ...)` (lines 671-674), which raises
`struct.error` outside the int32 range: `none` models that uncaught
exception (the transaction aborts, committing nothing). -/
def updateCore (s0 s : State) (a : UArgs) (r : CtRow) : Option (UpdStatus × State) :=
  let key := (a.account, a.cname)
  if a.new_mtime > r.mtime ∨ a.new_dtime > r.dtime then
    let mtime1 := max r.mtime a.new_mtime
    let dtime1 := max r.dtime a.new_dtime
    if dtime1 ≥ mtime1 then
      let incO : Int := if r.objects ≠ 0 then -(r.objects : Int) else 0
      let incB : Int := if r.bytes ≠ 0 then -(r.bytes : Int) else 0
      let s := { s with containers := aDel s.containers key,
                        ctsIndex := pDel s.ctsIndex key,
                        toDelete := aPut s.toDelete key dtime1 }
      afterBranch s0 s a incO incB dtime1 true
    else if mtime1 > r.mtime then
      if packI32 (a.new_total_objects : Int) = none ∨
          packI32 (a.new_total_bytes : Int) = none then none
      else
        let incO : Int := (a.new_total_objects : Int) - (r.objects : Int)
        let incB : Int := (a.new_total_bytes : Int) - (r.bytes : Int)
        let s := { s with containers := aPut s.containers key
                            ⟨mtime1, dtime1, a.new_total_objects, a.new_total_bytes, r.bucket⟩,
                          ctsIndex := pIns s.ctsIndex key }
        afterBranch s0 s a incO incB mtime1 false
    else some (.no_update_needed, s)
  else some (.no_update_needed, s)

/-- Commit of one `@fdb.transactional` run: an uncaught exception (`none`)
aborts the transaction, so nothing is committed and the caller observes the
exception against the unchanged store `s0`. -/
def runTr (s0 : State) (x : Option (UpdStatus × State)) : UpdStatus × State :=
  match x with
  | some res => res
  | none => (.packError, s0)

/-- `_update_container`, lines 593-775: the container-update state machine
run as one transaction against committed state `s0`. -/
def _update_container (s0 : State) (a : UArgs) (now : Nat) : UpdStatus × State :=
  let key := (a.account, a.cname)
  let accountExists := bmem s0.accts a.account
  if ¬ accountExists ∧ ¬ a.autocreate_account then (.no_account, s0)
  else
    let s := if accountExists then s0 else (_create_account s0 a.account now).2
    let rowT := aGet s.containers key
    if ¬ a.autocreate_container ∧ rowT = none then (.no_container, s)
    else
      let deletedTime := (aGet s.toDelete key).getD 0
      match rowT with
      | some r =>
        if ¬ a.autocreate_container ∧ r.dtime ≥ r.mtime then (.no_container, s)
        else runTr s0 (updateCore s0 s a r)
      | none =>
        if a.new_mtime < deletedTime then (.no_container, s)
        else runTr s0 (updateCore s0 s a ⟨0, 0, 0, 0, none⟩)

/-- Outcome of the `update_container` wrapper (lines 342-391): statuses are
mapped to `NotFound` / `Conflict`, everything else returns the name. -/
inductive ApiResult
  | okR (cname : Bytes) | badRequest | notFoundAccount | notFoundContainer | conflictR
  | structError
  deriving DecidableEq, Repr

/-- `update_container` wrapper: argument checks plus the status-to-error
mapping of lines 383-391.  A `struct.error` escaping the transaction is not
translated by `catch_service_errors` (it is neither `fdb.FDBError` nor
`ValueError`), so the caller sees the raw exception. -/
def update_container (s : State) (a : UArgs) (now : Nat) : ApiResult × State :=
  if a.account = [] ∨ a.cname = [] then (.badRequest, s)
  else
    let r := _update_container s a now
    match r.1 with
    | .no_account => (.notFoundAccount, r.2)
    | .no_container => (.notFoundContainer, r.2)
    | .no_update_needed => (.conflictR, r.2)
    | .packError => (.structError, r.2)
    | _ => (.okR a.cname, r.2)

/-! ### Generic association-list and cell lemmas -/

theorem aGet_aPut_self {κ β : Type} [DecidableEq κ] (l : List (κ × β)) (k : κ) (v : β) :
    aGet (aPut l k v) k = some v := by
  simp [aGet, aPut]

theorem aGet_filter_ne {κ β : Type} [DecidableEq κ] (l : List (κ × β)) (k : κ) :
    aGet (l.filter (fun p => ¬ p.1 = k)) k = none := by
  induction l with
  | nil => simp [aGet]
  | cons p t ih =>
    by_cases h : p.1 = k
    · simpa [List.filter, h] using ih
    · simpa [List.filter, h, aGet] using ih

theorem aGet_aDel_self {κ β : Type} [DecidableEq κ] (l : List (κ × β)) (k : κ) :
    aGet (aDel l k) k = none := aGet_filter_ne l k

set_option linter.unnecessarySimpa false in
theorem pmem_pDel_self (l : List (Bytes × Bytes)) (k : Bytes × Bytes) :
    pmem (pDel l k) k = false := by
  induction l with
  | nil => simp [pmem, pDel]
  | cons p t ih =>
    by_cases h : p = k
    · simp only [pDel, List.filter, h]
      simpa [pDel] using ih
    · simp only [pDel, pmem, List.filter, h] at ih ⊢
      simpa [h] using ih

theorem addCell_zero (c : Nat) (h : c < 4294967296) : addCell c 0 = c := by
  unfold addCell; omega

theorem addCell_subNat (c o : Nat) (h1 : o ≤ c) (h2 : c < 4294967296) :
    addCell c (-(o : Int)) = c - o := by
  unfold addCell; omega

/-! ### Component-preservation lemmas for the state helpers -/

theorem acctAddObjects_comp (s : State) (a : Bytes) (i : Int) :
    (acctAddObjects s a i).accts = s.accts ∧
    (acctAddObjects s a i).containers = s.containers ∧
    (acctAddObjects s a i).ctsIndex = s.ctsIndex ∧
    (acctAddObjects s a i).toDelete = s.toDelete ∧
    (acctAddObjects s a i).buckets = s.buckets ∧
    (acctAddObjects s a i).bsAcct = s.bsAcct ∧
    (acctAddObjects s a i).bsGlobal = s.bsGlobal ∧
    (acctAddObjects s a i).metadataSp = s.metadataSp := by
  simp [acctAddObjects]

theorem applyAcctIncs_comp (s : State) (a : Bytes) (iO iB : Int) :
    (applyAcctIncs s a iO iB).accts = s.accts ∧
    (applyAcctIncs s a iO iB).containers = s.containers ∧
    (applyAcctIncs s a iO iB).ctsIndex = s.ctsIndex ∧
    (applyAcctIncs s a iO iB).toDelete = s.toDelete ∧
    (applyAcctIncs s a iO iB).buckets = s.buckets ∧
    (applyAcctIncs s a iO iB).bsAcct = s.bsAcct ∧
    (applyAcctIncs s a iO iB).bsGlobal = s.bsGlobal ∧
    (applyAcctIncs s a iO iB).metadataSp = s.metadataSp := by
  unfold applyAcctIncs
  split <;> split <;> simp [acctAddObjects, acctAddBytes]

theorem applyAcctIncs_val (s : State) (acct : Bytes) (iO iB : Int) (row : AcctRow)
    (h : aGet s.acctRows acct = some row) :
    aGet (applyAcctIncs s acct iO iB).acctRows acct =
      some ⟨if iO ≠ 0 then addCell row.objects iO else row.objects,
            if iB ≠ 0 then addCell row.bytes iB else row.bytes, row.ctime⟩ := by
  unfold applyAcctIncs acctAddObjects acctAddBytes
  split <;> split <;> simp_all [aGet_aPut_self, h]

theorem applyAcctIncs_zero (s : State) (acct : Bytes) :
    applyAcctIncs s acct 0 0 = s := by
  simp [applyAcctIncs]

/-! ### Projection lemmas: each helper touches one component only -/

@[simp] theorem acctAddObjects_accts (s : State) (a : Bytes) (i : Int) :
    (acctAddObjects s a i).accts = s.accts := rfl

@[simp] theorem acctAddObjects_containers (s : State) (a : Bytes) (i : Int) :
    (acctAddObjects s a i).containers = s.containers := rfl

@[simp] theorem acctAddObjects_ctsIndex (s : State) (a : Bytes) (i : Int) :
    (acctAddObjects s a i).ctsIndex = s.ctsIndex := rfl

@[simp] theorem acctAddObjects_toDelete (s : State) (a : Bytes) (i : Int) :
    (acctAddObjects s a i).toDelete = s.toDelete := rfl

@[simp] theorem acctAddObjects_buckets (s : State) (a : Bytes) (i : Int) :
    (acctAddObjects s a i).buckets = s.buckets := rfl

@[simp] theorem acctAddObjects_bsAcct (s : State) (a : Bytes) (i : Int) :
    (acctAddObjects s a i).bsAcct = s.bsAcct := rfl

@[simp] theorem acctAddObjects_bsGlobal (s : State) (a : Bytes) (i : Int) :
    (acctAddObjects s a i).bsGlobal = s.bsGlobal := rfl

@[simp] theorem acctAddObjects_metadataSp (s : State) (a : Bytes) (i : Int) :
    (acctAddObjects s a i).metadataSp = s.metadataSp := rfl

@[simp] theorem acctAddBytes_accts (s : State) (a : Bytes) (i : Int) :
    (acctAddBytes s a i).accts = s.accts := rfl

@[simp] theorem acctAddBytes_containers (s : State) (a : Bytes) (i : Int) :
    (acctAddBytes s a i).containers = s.containers := rfl

@[simp] theorem acctAddBytes_ctsIndex (s : State) (a : Bytes) (i : Int) :
    (acctAddBytes s a i).ctsIndex = s.ctsIndex := rfl

@[simp] theorem acctAddBytes_toDelete (s : State) (a : Bytes) (i : Int) :
    (acctAddBytes s a i).toDelete = s.toDelete := rfl

@[simp] theorem acctAddBytes_buckets (s : State) (a : Bytes) (i : Int) :
    (acctAddBytes s a i).buckets = s.buckets := rfl

@[simp] theorem acctAddBytes_bsAcct (s : State) (a : Bytes) (i : Int) :
    (acctAddBytes s a i).bsAcct = s.bsAcct := rfl

@[simp] theorem acctAddBytes_bsGlobal (s : State) (a : Bytes) (i : Int) :
    (acctAddBytes s a i).bsGlobal = s.bsGlobal := rfl

@[simp] theorem acctAddBytes_metadataSp (s : State) (a : Bytes) (i : Int) :
    (acctAddBytes s a i).metadataSp = s.metadataSp := rfl

@[simp] theorem bucketCountersAdd_accts (s : State) (b : Bytes) (iO iB : Int) :
    (bucketCountersAdd s b iO iB).accts = s.accts := rfl

@[simp] theorem bucketCountersAdd_acctRows (s : State) (b : Bytes) (iO iB : Int) :
    (bucketCountersAdd s b iO iB).acctRows = s.acctRows := rfl

@[simp] theorem bucketCountersAdd_containers (s : State) (b : Bytes) (iO iB : Int) :
    (bucketCountersAdd s b iO iB).containers = s.containers := rfl

@[simp] theorem bucketCountersAdd_ctsIndex (s : State) (b : Bytes) (iO iB : Int) :
    (bucketCountersAdd s b iO iB).ctsIndex = s.ctsIndex := rfl

@[simp] theorem bucketCountersAdd_toDelete (s : State) (b : Bytes) (iO iB : Int) :
    (bucketCountersAdd s b iO iB).toDelete = s.toDelete := rfl

@[simp] theorem bucketCountersAdd_bsAcct (s : State) (b : Bytes) (iO iB : Int) :
    (bucketCountersAdd s b iO iB).bsAcct = s.bsAcct := rfl

@[simp] theorem bucketCountersAdd_bsGlobal (s : State) (b : Bytes) (iO iB : Int) :
    (bucketCountersAdd s b iO iB).bsGlobal = s.bsGlobal := rfl

@[simp] theorem bucketCountersAdd_metadataSp (s : State) (b : Bytes) (iO iB : Int) :
    (bucketCountersAdd s b iO iB).metadataSp = s.metadataSp := rfl

@[simp] theorem setBucketMtime_accts (s : State) (b : Bytes) (m : Nat) :
    (setBucketMtime s b m).accts = s.accts := rfl

@[simp] theorem setBucketMtime_acctRows (s : State) (b : Bytes) (m : Nat) :
    (setBucketMtime s b m).acctRows = s.acctRows := rfl

@[simp] theorem setBucketMtime_containers (s : State) (b : Bytes) (m : Nat) :
    (setBucketMtime s b m).containers = s.containers := rfl

@[simp] theorem setBucketMtime_ctsIndex (s : State) (b : Bytes) (m : Nat) :
    (setBucketMtime s b m).ctsIndex = s.ctsIndex := rfl

@[simp] theorem setBucketMtime_toDelete (s : State) (b : Bytes) (m : Nat) :
    (setBucketMtime s b m).toDelete = s.toDelete := rfl

@[simp] theorem setBucketMtime_bsAcct (s : State) (b : Bytes) (m : Nat) :
    (setBucketMtime s b m).bsAcct = s.bsAcct := rfl

@[simp] theorem setBucketMtime_bsGlobal (s : State) (b : Bytes) (m : Nat) :
    (setBucketMtime s b m).bsGlobal = s.bsGlobal := rfl

@[simp] theorem setBucketMtime_metadataSp (s : State) (b : Bytes) (m : Nat) :
    (setBucketMtime s b m).metadataSp = s.metadataSp := rfl

@[simp] theorem setBucketAccount_accts (s : State) (b : Bytes) (ac : Bytes) :
    (setBucketAccount s b ac).accts = s.accts := rfl

@[simp] theorem setBucketAccount_acctRows (s : State) (b : Bytes) (ac : Bytes) :
    (setBucketAccount s b ac).acctRows = s.acctRows := rfl

@[simp] theorem setBucketAccount_containers (s : State) (b : Bytes) (ac : Bytes) :
    (setBucketAccount s b ac).containers = s.containers := rfl

@[simp] theorem setBucketAccount_ctsIndex (s : State) (b : Bytes) (ac : Bytes) :
    (setBucketAccount s b ac).ctsIndex = s.ctsIndex := rfl

@[simp] theorem setBucketAccount_toDelete (s : State) (b : Bytes) (ac : Bytes) :
    (setBucketAccount s b ac).toDelete = s.toDelete := rfl

@[simp] theorem setBucketAccount_bsAcct (s : State) (b : Bytes) (ac : Bytes) :
    (setBucketAccount s b ac).bsAcct = s.bsAcct := rfl

@[simp] theorem setBucketAccount_bsGlobal (s : State) (b : Bytes) (ac : Bytes) :
    (setBucketAccount s b ac).bsGlobal = s.bsGlobal := rfl

@[simp] theorem setBucketAccount_metadataSp (s : State) (b : Bytes) (ac : Bytes) :
    (setBucketAccount s b ac).metadataSp = s.metadataSp := rfl

@[simp] theorem setRowBucket_accts (s : State) (k : Bytes × Bytes) (b : Bytes) :
    (setRowBucket s k b).accts = s.accts := by
  unfold setRowBucket; split <;> rfl

@[simp] theorem setRowBucket_acctRows (s : State) (k : Bytes × Bytes) (b : Bytes) :
    (setRowBucket s k b).acctRows = s.acctRows := by
  unfold setRowBucket; split <;> rfl

@[simp] theorem setRowBucket_ctsIndex (s : State) (k : Bytes × Bytes) (b : Bytes) :
    (setRowBucket s k b).ctsIndex = s.ctsIndex := by
  unfold setRowBucket; split <;> rfl

@[simp] theorem setRowBucket_toDelete (s : State) (k : Bytes × Bytes) (b : Bytes) :
    (setRowBucket s k b).toDelete = s.toDelete := by
  unfold setRowBucket; split <;> rfl

@[simp] theorem setRowBucket_buckets (s : State) (k : Bytes × Bytes) (b : Bytes) :
    (setRowBucket s k b).buckets = s.buckets := by
  unfold setRowBucket; split <;> rfl

@[simp] theorem setRowBucket_bsAcct (s : State) (k : Bytes × Bytes) (b : Bytes) :
    (setRowBucket s k b).bsAcct = s.bsAcct := by
  unfold setRowBucket; split <;> rfl

@[simp] theorem setRowBucket_bsGlobal (s : State) (k : Bytes × Bytes) (b : Bytes) :
    (setRowBucket s k b).bsGlobal = s.bsGlobal := by
  unfold setRowBucket; split <;> rfl

@[simp] theorem setRowBucket_metadataSp (s : State) (k : Bytes × Bytes) (b : Bytes) :
    (setRowBucket s k b).metadataSp = s.metadataSp := by
  unfold setRowBucket; split <;> rfl

@[simp] theorem applyAcctIncs_accts (s : State) (a : Bytes) (iO iB : Int) :
    (applyAcctIncs s a iO iB).accts = s.accts := by
  unfold applyAcctIncs; split <;> split <;> simp

@[simp] theorem applyAcctIncs_containers (s : State) (a : Bytes) (iO iB : Int) :
    (applyAcctIncs s a iO iB).containers = s.containers := by
  unfold applyAcctIncs; split <;> split <;> simp

@[simp] theorem applyAcctIncs_ctsIndex (s : State) (a : Bytes) (iO iB : Int) :
    (applyAcctIncs s a iO iB).ctsIndex = s.ctsIndex := by
  unfold applyAcctIncs; split <;> split <;> simp

@[simp] theorem applyAcctIncs_toDelete (s : State) (a : Bytes) (iO iB : Int) :
    (applyAcctIncs s a iO iB).toDelete = s.toDelete := by
  unfold applyAcctIncs; split <;> split <;> simp

@[simp] theorem applyAcctIncs_buckets (s : State) (a : Bytes) (iO iB : Int) :
    (applyAcctIncs s a iO iB).buckets = s.buckets := by
  unfold applyAcctIncs; split <;> split <;> simp

@[simp] theorem applyAcctIncs_bsAcct (s : State) (a : Bytes) (iO iB : Int) :
    (applyAcctIncs s a iO iB).bsAcct = s.bsAcct := by
  unfold applyAcctIncs; split <;> split <;> simp

@[simp] theorem applyAcctIncs_bsGlobal (s : State) (a : Bytes) (iO iB : Int) :
    (applyAcctIncs s a iO iB).bsGlobal = s.bsGlobal := by
  unfold applyAcctIncs; split <;> split <;> simp

@[simp] theorem applyAcctIncs_metadataSp (s : State) (a : Bytes) (iO iB : Int) :
    (applyAcctIncs s a iO iB).metadataSp = s.metadataSp := by
  unfold applyAcctIncs; split <;> split <;> simp

/-! ### ite-projection push lemmas and projections of the new helpers -/

@[simp] theorem ite_State_accts (c : Prop) [Decidable c] (x y : State) :
    (if c then x else y).accts = if c then x.accts else y.accts := by
  split <;> rfl

@[simp] theorem ite_State_acctRows (c : Prop) [Decidable c] (x y : State) :
    (if c then x else y).acctRows = if c then x.acctRows else y.acctRows := by
  split <;> rfl

@[simp] theorem ite_State_containers (c : Prop) [Decidable c] (x y : State) :
    (if c then x else y).containers = if c then x.containers else y.containers := by
  split <;> rfl

@[simp] theorem ite_State_ctsIndex (c : Prop) [Decidable c] (x y : State) :
    (if c then x else y).ctsIndex = if c then x.ctsIndex else y.ctsIndex := by
  split <;> rfl

@[simp] theorem ite_State_toDelete (c : Prop) [Decidable c] (x y : State) :
    (if c then x else y).toDelete = if c then x.toDelete else y.toDelete := by
  split <;> rfl

@[simp] theorem ite_State_buckets (c : Prop) [Decidable c] (x y : State) :
    (if c then x else y).buckets = if c then x.buckets else y.buckets := by
  split <;> rfl

@[simp] theorem ite_State_bsAcct (c : Prop) [Decidable c] (x y : State) :
    (if c then x else y).bsAcct = if c then x.bsAcct else y.bsAcct := by
  split <;> rfl

@[simp] theorem ite_State_bsGlobal (c : Prop) [Decidable c] (x y : State) :
    (if c then x else y).bsGlobal = if c then x.bsGlobal else y.bsGlobal := by
  split <;> rfl

@[simp] theorem ite_State_metadataSp (c : Prop) [Decidable c] (x y : State) :
    (if c then x else y).metadataSp = if c then x.metadataSp else y.metadataSp := by
  split <;> rfl

@[simp] theorem ite_pair_fst {A B : Type} (c : Prop) [Decidable c] (x y : A × B) :
    (if c then x else y).1 = if c then x.1 else y.1 := by
  split <;> rfl

@[simp] theorem ite_pair_snd {A B : Type} (c : Prop) [Decidable c] (x y : A × B) :
    (if c then x else y).2 = if c then x.2 else y.2 := by
  split <;> rfl

@[simp] theorem clearRowBucketIfPresent_accts (s : State) (k : Bytes × Bytes) :
    (clearRowBucketIfPresent s k).accts = s.accts := by
  unfold clearRowBucketIfPresent; split <;> rfl

@[simp] theorem clearRowBucketIfPresent_acctRows (s : State) (k : Bytes × Bytes) :
    (clearRowBucketIfPresent s k).acctRows = s.acctRows := by
  unfold clearRowBucketIfPresent; split <;> rfl

@[simp] theorem clearRowBucketIfPresent_ctsIndex (s : State) (k : Bytes × Bytes) :
    (clearRowBucketIfPresent s k).ctsIndex = s.ctsIndex := by
  unfold clearRowBucketIfPresent; split <;> rfl

@[simp] theorem clearRowBucketIfPresent_toDelete (s : State) (k : Bytes × Bytes) :
    (clearRowBucketIfPresent s k).toDelete = s.toDelete := by
  unfold clearRowBucketIfPresent; split <;> rfl

@[simp] theorem clearRowBucketIfPresent_buckets (s : State) (k : Bytes × Bytes) :
    (clearRowBucketIfPresent s k).buckets = s.buckets := by
  unfold clearRowBucketIfPresent; split <;> rfl

@[simp] theorem clearRowBucketIfPresent_bsAcct (s : State) (k : Bytes × Bytes) :
    (clearRowBucketIfPresent s k).bsAcct = s.bsAcct := by
  unfold clearRowBucketIfPresent; split <;> rfl

@[simp] theorem clearRowBucketIfPresent_bsGlobal (s : State) (k : Bytes × Bytes) :
    (clearRowBucketIfPresent s k).bsGlobal = s.bsGlobal := by
  unfold clearRowBucketIfPresent; split <;> rfl

@[simp] theorem clearRowBucketIfPresent_metadataSp (s : State) (k : Bytes × Bytes) :
    (clearRowBucketIfPresent s k).metadataSp = s.metadataSp := by
  unfold clearRowBucketIfPresent; split <;> rfl

@[simp] theorem bucketRootDelete_accts (s : State) (a b : Bytes) :
    (bucketRootDelete s a b).accts = s.accts := rfl

@[simp] theorem bucketRootDelete_acctRows (s : State) (a b : Bytes) :
    (bucketRootDelete s a b).acctRows = s.acctRows := rfl

@[simp] theorem bucketRootDelete_containers (s : State) (a b : Bytes) :
    (bucketRootDelete s a b).containers = s.containers := rfl

@[simp] theorem bucketRootDelete_ctsIndex (s : State) (a b : Bytes) :
    (bucketRootDelete s a b).ctsIndex = s.ctsIndex := rfl

@[simp] theorem bucketRootDelete_toDelete (s : State) (a b : Bytes) :
    (bucketRootDelete s a b).toDelete = s.toDelete := rfl

@[simp] theorem bucketRootDelete_metadataSp (s : State) (a b : Bytes) :
    (bucketRootDelete s a b).metadataSp = s.metadataSp := rfl

@[simp] theorem bucketTail_accts (s : State) (a cn b : Bytes) :
    (bucketTail s a cn b).accts = s.accts := by
  simp [bucketTail]

@[simp] theorem bucketTail_acctRows (s : State) (a cn b : Bytes) :
    (bucketTail s a cn b).acctRows = s.acctRows := by
  simp [bucketTail]

@[simp] theorem bucketTail_ctsIndex (s : State) (a cn b : Bytes) :
    (bucketTail s a cn b).ctsIndex = s.ctsIndex := by
  simp [bucketTail]

@[simp] theorem bucketTail_toDelete (s : State) (a cn b : Bytes) :
    (bucketTail s a cn b).toDelete = s.toDelete := by
  simp [bucketTail]

@[simp] theorem bucketTail_metadataSp (s : State) (a cn b : Bytes) :
    (bucketTail s a cn b).metadataSp = s.metadataSp := by
  simp [bucketTail]


@[simp] theorem clearRowBucketIfPresent_containers_none (s : State) (k : Bytes × Bytes)
    (h : aGet s.containers k = none) : (clearRowBucketIfPresent s k).containers = s.containers := by
  unfold clearRowBucketIfPresent; rw [h]

theorem setRowBucket_containers_some (s : State) (k : Bytes × Bytes) (b : Bytes) (r : CtRow)
    (h : aGet s.containers k = some r) :
    (setRowBucket s k b).containers = aPut s.containers k { r with bucket := some b } := by
  unfold setRowBucket; rw [h]

@[simp] theorem bucketTail_row (s : State) (acct cname bname : Bytes) (r : CtRow)
    (h : aGet s.containers (acct, cname) = some r) :
    aGet (bucketTail s acct cname bname).containers (acct, cname) =
      some { r with bucket := some bname } := by
  unfold bucketTail
  have hc : aGet (if bPref shardsPref acct = true then s else setBucketAccount s bname acct).containers
      (acct, cname) = some r := by
    simp [h]
  simp [setRowBucket_containers_some _ _ _ _ hc, aGet_aPut_self]

/-! ### Shape lemmas for the two branches of `_update_container` -/

theorem packI32_ne_none (i : Int) (h1 : -2147483648 ≤ i) (h2 : i < 2147483648) :
    packI32 i ≠ none := by
  simp [packI32, h1, h2]

@[simp] theorem aGet_ite {K B : Type} [DecidableEq K] (c : Prop) [Decidable c]
    (l1 l2 : List (K × B)) (k : K) :
    aGet (if c then l1 else l2) k = if c then aGet l1 k else aGet l2 k := by
  split <;> rfl

theorem bucketUpd_eq (s2 : State) (bn : Bytes) (iO iB : Int) (mC : Nat) (s4 : State)
    (h : bucketUpd s2 bn iO iB mC = some s4) :
    s4.acctRows = s2.acctRows ∧ s4.accts = s2.accts ∧ s4.ctsIndex = s2.ctsIndex ∧
      s4.toDelete = s2.toDelete ∧ s4.containers = s2.containers := by
  simp only [bucketUpd] at h
  repeat' split at h
  all_goals try exact Option.noConfusion h
  all_goals injection h with h2
  all_goals subst h2
  all_goals simp

theorem bucketUpd_isSome (s2 : State) (bn : Bytes) (iO iB : Int) (mC : Nat)
    (hO : packI32 iO ≠ none) (hB : packI32 iB ≠ none) :
    (bucketUpd s2 bn iO iB mC).isSome = true := by
  simp only [bucketUpd]
  rw [if_neg (by simp [hO]), if_neg (by simp [hB])]
  rfl

theorem afterBranch_acctRows (s0 s : State) (a : UArgs) (iO iB : Int) (mC : Nat) (del : Bool)
    (res : UpdStatus × State) (h : afterBranch s0 s a iO iB mC del = some res) :
    res.2.acctRows = (applyAcctIncs s a.account iO iB).acctRows := by
  simp only [afterBranch] at h
  repeat' split at h
  all_goals try exact Option.noConfusion h
  all_goals try (injection h with h2; subst h2; simp_all)
  all_goals rw [Option.map_eq_some'] at h
  all_goals obtain ⟨s4, hs4, h3⟩ := h
  all_goals obtain ⟨e1, e2, e3, e4, e5⟩ := bucketUpd_eq _ _ _ _ _ _ hs4
  all_goals subst h3
  all_goals simp_all

theorem afterBranch_accts (s0 s : State) (a : UArgs) (iO iB : Int) (mC : Nat) (del : Bool)
    (res : UpdStatus × State) (h : afterBranch s0 s a iO iB mC del = some res) :
    res.2.accts = s.accts := by
  simp only [afterBranch] at h
  repeat' split at h
  all_goals try exact Option.noConfusion h
  all_goals try (injection h with h2; subst h2; simp_all)
  all_goals rw [Option.map_eq_some'] at h
  all_goals obtain ⟨s4, hs4, h3⟩ := h
  all_goals obtain ⟨e1, e2, e3, e4, e5⟩ := bucketUpd_eq _ _ _ _ _ _ hs4
  all_goals subst h3
  all_goals simp_all

theorem afterBranch_ctsIndex (s0 s : State) (a : UArgs) (iO iB : Int) (mC : Nat) (del : Bool)
    (res : UpdStatus × State) (h : afterBranch s0 s a iO iB mC del = some res) :
    res.2.ctsIndex = s.ctsIndex := by
  simp only [afterBranch] at h
  repeat' split at h
  all_goals try exact Option.noConfusion h
  all_goals try (injection h with h2; subst h2; simp_all)
  all_goals rw [Option.map_eq_some'] at h
  all_goals obtain ⟨s4, hs4, h3⟩ := h
  all_goals obtain ⟨e1, e2, e3, e4, e5⟩ := bucketUpd_eq _ _ _ _ _ _ hs4
  all_goals subst h3
  all_goals simp_all

theorem afterBranch_toDelete (s0 s : State) (a : UArgs) (iO iB : Int) (mC : Nat) (del : Bool)
    (res : UpdStatus × State) (h : afterBranch s0 s a iO iB mC del = some res) :
    res.2.toDelete = s.toDelete := by
  simp only [afterBranch] at h
  repeat' split at h
  all_goals try exact Option.noConfusion h
  all_goals try (injection h with h2; subst h2; simp_all)
  all_goals rw [Option.map_eq_some'] at h
  all_goals obtain ⟨s4, hs4, h3⟩ := h
  all_goals obtain ⟨e1, e2, e3, e4, e5⟩ := bucketUpd_eq _ _ _ _ _ _ hs4
  all_goals subst h3
  all_goals simp_all

theorem afterBranch_true_containers (s0 s : State) (a : UArgs) (iO iB : Int) (mC : Nat)
    (hn : aGet s.containers (a.account, a.cname) = none)
    (res : UpdStatus × State) (h : afterBranch s0 s a iO iB mC true = some res) :
    res.2.containers = s.containers := by
  simp only [afterBranch] at h
  repeat' split at h
  all_goals try exact Option.noConfusion h
  all_goals try (injection h with h2; subst h2; simp_all)
  all_goals rw [Option.map_eq_some'] at h
  all_goals obtain ⟨s4, hs4, h3⟩ := h
  all_goals obtain ⟨e1, e2, e3, e4, e5⟩ := bucketUpd_eq _ _ _ _ _ _ hs4
  all_goals subst h3
  all_goals simp_all

theorem afterBranch_false_fst (s0 s : State) (a : UArgs) (iO iB : Int) (mC : Nat)
    (res : UpdStatus × State) (h : afterBranch s0 s a iO iB mC false = some res) :
    res.1 = .updatedSt := by
  simp only [afterBranch] at h
  repeat' split at h
  all_goals try exact Option.noConfusion h
  all_goals try (injection h with h2; subst h2; simp_all)
  all_goals rw [Option.map_eq_some'] at h
  all_goals obtain ⟨s4, hs4, h3⟩ := h
  all_goals subst h3
  all_goals simp_all

theorem afterBranch_false_rowMD (s0 s : State) (a : UArgs) (iO iB : Int) (mC : Nat) (r : CtRow)
    (hrow : aGet s.containers (a.account, a.cname) = some r)
    (res : UpdStatus × State) (h : afterBranch s0 s a iO iB mC false = some res) :
    ((aGet res.2.containers (a.account, a.cname)).map
      (fun x => (x.mtime, x.dtime, x.objects, x.bytes))) =
      some (r.mtime, r.dtime, r.objects, r.bytes) := by
  simp only [afterBranch] at h
  repeat' split at h
  all_goals try exact Option.noConfusion h
  all_goals try (injection h with h2; subst h2; simp_all)
  all_goals rw [Option.map_eq_some'] at h
  all_goals obtain ⟨s4, hs4, h3⟩ := h
  all_goals obtain ⟨e1, e2, e3, e4, e5⟩ := bucketUpd_eq _ _ _ _ _ _ hs4
  all_goals subst h3
  all_goals simp_all

set_option linter.unnecessarySeqFocus false in
theorem bucketUpd_ne_none (s2 : State) (bn : Bytes) (iO iB : Int) (mC : Nat)
    (hO : packI32 iO ≠ none) (hB : packI32 iB ≠ none) :
    bucketUpd s2 bn iO iB mC ≠ none := by
  have h := bucketUpd_isSome s2 bn iO iB mC hO hB
  intro hc
  rw [hc] at h
  exact Bool.noConfusion h

set_option linter.unnecessarySeqFocus false in
/-- Under int32 bounds on the deltas and the event totals, no pack on the
account or bucket path fails, so `afterBranch` commits. -/
theorem afterBranch_some_of_bounds (s0 s : State) (a : UArgs) (iO iB : Int) (mC : Nat)
    (del : Bool)
    (h1 : -2147483648 ≤ iO) (h2 : iO < 2147483648)
    (h3 : -2147483648 ≤ iB) (h4 : iB < 2147483648)
    (h5 : a.new_total_objects < 2147483648) (h6 : a.new_total_bytes < 2147483648) :
    ∃ res, afterBranch s0 s a iO iB mC del = some res := by
  have pO := packI32_ne_none iO h1 h2
  have pB := packI32_ne_none iB h3 h4
  have pTO := packI32_ne_none (a.new_total_objects : Int) (by omega) (by omega)
  have pTB := packI32_ne_none (a.new_total_bytes : Int) (by omega) (by omega)
  have p0 : packI32 (0 : Int) ≠ none := by decide
  cases hres : afterBranch s0 s a iO iB mC del with
  | some res => exact ⟨res, rfl⟩
  | none =>
    exfalso
    simp only [afterBranch] at hres
    rw [if_neg (by simp [pO]), if_neg (by simp [pB])] at hres
    repeat' split at hres
    all_goals try exact Option.noConfusion hres
    all_goals rw [Option.map_eq_none'] at hres
    all_goals exact absurd hres (bucketUpd_ne_none _ _ _ _ _
      (by simp [packI32] <;> omega) (by simp [packI32] <;> omega))

/-! ### Branch-reduction lemmas for `_update_container` -/

theorem updateCore_stale (s0 s : State) (a : UArgs) (r : CtRow)
    (h1 : a.new_mtime ≤ r.mtime) (h2 : a.new_dtime ≤ r.dtime) :
    updateCore s0 s a r = some (.no_update_needed, s) := by
  unfold updateCore
  rw [if_neg (by omega)]

theorem updateCore_update (s0 s : State) (a : UArgs) (r : CtRow)
    (hmt : r.mtime < a.new_mtime)
    (hdl : max r.dtime a.new_dtime < max r.mtime a.new_mtime)
    (hO : a.new_total_objects < 2147483648)
    (hB : a.new_total_bytes < 2147483648) :
    updateCore s0 s a r =
      afterBranch s0
        { s with containers := aPut s.containers (a.account, a.cname)
                   ⟨max r.mtime a.new_mtime, max r.dtime a.new_dtime,
                    a.new_total_objects, a.new_total_bytes, r.bucket⟩,
                 ctsIndex := pIns s.ctsIndex (a.account, a.cname) }
        a ((a.new_total_objects : Int) - (r.objects : Int))
        ((a.new_total_bytes : Int) - (r.bytes : Int))
        (max r.mtime a.new_mtime) false := by
  unfold updateCore
  rw [if_pos (by omega), if_neg (by omega), if_pos (by omega),
      if_neg (by
        rw [not_or]
        exact ⟨packI32_ne_none _ (by omega) (by omega),
              packI32_ne_none _ (by omega) (by omega)⟩)]

theorem updateCore_delete (s0 s : State) (a : UArgs) (r : CtRow)
    (hadv : a.new_mtime > r.mtime ∨ a.new_dtime > r.dtime)
    (hdel : max r.mtime a.new_mtime ≤ max r.dtime a.new_dtime) :
    updateCore s0 s a r =
      afterBranch s0
        { s with containers := aDel s.containers (a.account, a.cname),
                 ctsIndex := pDel s.ctsIndex (a.account, a.cname),
                 toDelete := aPut s.toDelete (a.account, a.cname) (max r.dtime a.new_dtime) }
        a (if r.objects ≠ 0 then -(r.objects : Int) else 0)
        (if r.bytes ≠ 0 then -(r.bytes : Int) else 0)
        (max r.dtime a.new_dtime) true := by
  unfold updateCore
  rw [if_pos hadv, if_pos (by omega)]

theorem _update_container_present (s : State) (a : UArgs) (now : Nat) (r : CtRow)
    (hacct : bmem s.accts a.account = true)
    (hrow : aGet s.containers (a.account, a.cname) = some r)
    (hauto : a.autocreate_container = true) :
    _update_container s a now = runTr s (updateCore s s a r) := by
  unfold _update_container
  simp [hacct, hrow, hauto]

theorem update_container_snd (s : State) (a : UArgs) (now : Nat)
    (hne : ¬ (a.account = [] ∨ a.cname = [])) :
    (update_container s a now).2 = (_update_container s a now).2 := by
  unfold update_container
  rw [if_neg hne]
  cases h : (_update_container s a now).1 <;> simp [h]

theorem stale_conflict_helper (s : State) (a : UArgs) (now : Nat) (r : CtRow)
    (hne1 : a.account ≠ []) (hne2 : a.cname ≠ [])
    (hacct : bmem s.accts a.account = true)
    (hrow : aGet s.containers (a.account, a.cname) = some r)
    (hauto : a.autocreate_container = true)
    (h1 : a.new_mtime ≤ r.mtime) (h2 : a.new_dtime ≤ r.dtime) :
    update_container s a now = (.conflictR, s) := by
  unfold update_container
  rw [if_neg (by simp [hne1, hne2])]
  rw [_update_container_present s a now r hacct hrow hauto,
      updateCore_stale s s a r h1 h2]
  rfl

theorem update_twice_helper (s : State) (a : UArgs) (now now2 : Nat) (r : CtRow)
    (hne1 : a.account ≠ []) (hne2 : a.cname ≠ [])
    (hacct : bmem s.accts a.account = true)
    (hrow : aGet s.containers (a.account, a.cname) = some r)
    (hauto : a.autocreate_container = true)
    (hmt : r.mtime < a.new_mtime)
    (hdl : max r.dtime a.new_dtime < max r.mtime a.new_mtime)
    (hO : a.new_total_objects < 2147483648)
    (hB : a.new_total_bytes < 2147483648)
    (hro : r.objects < 2147483648)
    (hrb : r.bytes < 2147483648) :
    (update_container s a now).1 = .okR a.cname ∧
    update_container (update_container s a now).2 a now2 =
      (.conflictR, (update_container s a now).2) := by
  have hne : ¬ (a.account = [] ∨ a.cname = []) := by simp [hne1, hne2]
  have hredc := _update_container_present s a now r hacct hrow hauto
  rw [updateCore_update s s a r hmt hdl hO hB] at hredc
  obtain ⟨res, hres⟩ := afterBranch_some_of_bounds s
      { s with
        containers := aPut s.containers (a.account, a.cname)
            ⟨max r.mtime a.new_mtime, max r.dtime a.new_dtime,
              a.new_total_objects, a.new_total_bytes, r.bucket⟩,
        ctsIndex := pIns s.ctsIndex (a.account, a.cname) }
      a ((a.new_total_objects : Int) - (r.objects : Int))
      ((a.new_total_bytes : Int) - (r.bytes : Int))
      (max r.mtime a.new_mtime) false
      (by omega) (by omega) (by omega) (by omega) hO hB
  rw [hres] at hredc
  have hredc2 : _update_container s a now = res := by rw [hredc]; rfl
  have hst : (_update_container s a now).1 = .updatedSt := by
    rw [hredc2]
    exact afterBranch_false_fst _ _ _ _ _ _ _ hres
  have hfst : (update_container s a now).1 = .okR a.cname := by
    simp [update_container, hne1, hne2, hst]
  refine ⟨hfst, ?_⟩
  have hsnd : (update_container s a now).2 = (_update_container s a now).2 :=
    update_container_snd s a now hne
  have haccts1 : ((_update_container s a now).2).accts = s.accts := by
    rw [hredc2, afterBranch_accts _ _ _ _ _ _ _ _ hres]
  have hrowMid : aGet ({ s with
        containers := aPut s.containers (a.account, a.cname)
            ⟨max r.mtime a.new_mtime, max r.dtime a.new_dtime,
              a.new_total_objects, a.new_total_bytes, r.bucket⟩,
        ctsIndex := pIns s.ctsIndex (a.account, a.cname) } : State).containers
      (a.account, a.cname) =
      some ⟨max r.mtime a.new_mtime, max r.dtime a.new_dtime,
            a.new_total_objects, a.new_total_bytes, r.bucket⟩ := aGet_aPut_self _ _ _
  have hmd := afterBranch_false_rowMD s
      { s with
        containers := aPut s.containers (a.account, a.cname)
            ⟨max r.mtime a.new_mtime, max r.dtime a.new_dtime,
              a.new_total_objects, a.new_total_bytes, r.bucket⟩,
        ctsIndex := pIns s.ctsIndex (a.account, a.cname) }
      a ((a.new_total_objects : Int) - (r.objects : Int))
      ((a.new_total_bytes : Int) - (r.bytes : Int))
      (max r.mtime a.new_mtime) _ hrowMid res hres
  rw [← hredc2] at hmd
  rw [Option.map_eq_some'] at hmd
  obtain ⟨r1, hr1, hflds⟩ := hmd
  simp only [Prod.mk.injEq] at hflds
  obtain ⟨hm1, hd1, -, -⟩ := hflds
  have hfinal := stale_conflict_helper ((_update_container s a now).2) a now2 r1 hne1 hne2
      (by rw [haccts1]; exact hacct) hr1 hauto
      (by rw [hm1]; exact le_max_right _ _)
      (by rw [hd1]; exact le_max_right _ _)
  rw [hsnd]
  exact hfinal

/-! ### Claim theorems: C1 and C5 -/

/-- C1 (amended): for a stored container row under an existing account, an
`update_container` event whose mtime is not greater than the stored mtime and
whose dtime is not greater than the stored dtime fails with NoUpdateNeeded
(surfaced as Conflict) and leaves every stored value unchanged; consequently
applying the same pure-update event (one whose candidate dtime stays strictly
below its candidate mtime, so the row survives, and whose totals and the
stored counts fit in int32, so no `struct.pack('<i', ...)` raises) twice
yields the same stored state as applying it once, the second application
being rejected as NoUpdateNeeded.  A replayed deletion event is instead
accepted again rather than rejected (see the counterexample). -/
theorem c1_staleness_and_update_idempotency :
    (∀ (s : State) (a : UArgs) (now : Nat) (r : CtRow),
        a.account ≠ [] → a.cname ≠ [] →
        bmem s.accts a.account = true →
        aGet s.containers (a.account, a.cname) = some r →
        a.autocreate_container = true →
        a.new_mtime ≤ r.mtime → a.new_dtime ≤ r.dtime →
        update_container s a now = (.conflictR, s)) ∧
    (∀ (s : State) (a : UArgs) (now now2 : Nat) (r : CtRow),
        a.account ≠ [] → a.cname ≠ [] →
        bmem s.accts a.account = true →
        aGet s.containers (a.account, a.cname) = some r →
        a.autocreate_container = true →
        r.mtime < a.new_mtime →
        max r.dtime a.new_dtime < max r.mtime a.new_mtime →
        a.new_total_objects < 2147483648 → a.new_total_bytes < 2147483648 →
        r.objects < 2147483648 → r.bytes < 2147483648 →
        (update_container s a now).1 = .okR a.cname ∧
        update_container (update_container s a now).2 a now2 =
          (.conflictR, (update_container s a now).2)) :=
  ⟨fun s a now r hne1 hne2 hacct hrow hauto h1 h2 =>
      stale_conflict_helper s a now r hne1 hne2 hacct hrow hauto h1 h2,
   fun s a now now2 r hne1 hne2 hacct hrow hauto hmt hdl hO hB hro hrb =>
      update_twice_helper s a now now2 r hne1 hne2 hacct hrow hauto hmt hdl hO hB hro hrb⟩

/-- C1 counterexample: the deletion event (mtime = dtime = 2) applied twice
from the empty store is accepted again on the second application (the call
returns the container name, i.e. success) instead of being rejected as
NoUpdateNeeded/Conflict as the claim states. -/
theorem c1_replayed_delete_not_conflict :
    (update_container (update_container initState
        ⟨S "A", S "c", [], 2, 2, true, true, 5, 500⟩ 1).2
        ⟨S "A", S "c", [], 2, 2, true, true, 5, 500⟩ 1).1 = ApiResult.okR (S "c") ∧
    (update_container (update_container initState
        ⟨S "A", S "c", [], 2, 2, true, true, 5, 500⟩ 1).2
        ⟨S "A", S "c", [], 2, 2, true, true, 5, 500⟩ 1).1 ≠ ApiResult.conflictR := by
  decide

def sW : State :=
  { accts := [S "A"],
    acctRows := [(S "A", ⟨10, 1000, 1⟩)],
    containers := [((S "A", S "c"), ⟨5, 2, 3, 300, none⟩)],
    ctsIndex := [(S "A", S "c")],
    toDelete := [], buckets := [], bsAcct := [], bsGlobal := [], metadataSp := [] }

/-- Witness for the C1 theorem at a concrete store. -/
theorem c1_witness :
    update_container sW ⟨S "A", S "c", [], 4, 1, true, true, 9, 900⟩ 7 = (.conflictR, sW) ∧
    ((update_container sW ⟨S "A", S "c", [], 9, 0, true, true, 7, 700⟩ 7).1 = .okR (S "c") ∧
      update_container
        (update_container sW ⟨S "A", S "c", [], 9, 0, true, true, 7, 700⟩ 7).2
        ⟨S "A", S "c", [], 9, 0, true, true, 7, 700⟩ 8 =
        (.conflictR,
          (update_container sW ⟨S "A", S "c", [], 9, 0, true, true, 7, 700⟩ 7).2)) :=
  ⟨c1_staleness_and_update_idempotency.1 sW _ 7 ⟨5, 2, 3, 300, none⟩
      (by decide) (by decide) (by decide) (by decide) (by decide) (by decide) (by decide),
   c1_staleness_and_update_idempotency.2 sW _ 7 8 ⟨5, 2, 3, 300, none⟩
      (by decide) (by decide) (by decide) (by decide) (by decide) (by decide) (by decide)
      (by decide) (by decide) (by decide) (by decide)⟩

/-- C5: when the container row is absent but a pending-delete marker records
a dtime strictly greater than the incoming mtime, the call fails with
NoContainer (NotFound) and the store is unchanged: no container row is
created and the deleted container is not resurrected. -/
theorem c5_stale_event_no_resurrection :
    ∀ (s : State) (a : UArgs) (now : Nat) (dt : Nat),
      a.account ≠ [] → a.cname ≠ [] →
      bmem s.accts a.account = true →
      aGet s.containers (a.account, a.cname) = none →
      aGet s.toDelete (a.account, a.cname) = some dt →
      a.new_mtime < dt →
      update_container s a now = (.notFoundContainer, s) := by
  intro s a now dt hne1 hne2 hacct hrow hmark hlt
  have h_inner : _update_container s a now = (.no_container, s) := by
    unfold _update_container
    cases hac : a.autocreate_container <;> simp [hacct, hrow, hmark, hlt, hac]
  simp [update_container, hne1, hne2, h_inner]

def sW5 : State :=
  { accts := [S "A"],
    acctRows := [(S "A", ⟨0, 0, 1⟩)],
    containers := [], ctsIndex := [],
    toDelete := [((S "A", S "c"), 9)],
    buckets := [], bsAcct := [], bsGlobal := [], metadataSp := [] }

/-- Witness for the C5 theorem at a concrete store. -/
theorem c5_witness :
    update_container sW5 ⟨S "A", S "c", [], 4, 0, true, true, 5, 500⟩ 7 =
      (.notFoundContainer, sW5) :=
  c5_stale_event_no_resurrection sW5 _ 7 9
    (by decide) (by decide) (by decide) (by decide) (by decide) (by decide)

/-! ### Claim theorem: C2 -/

/-- C2 (amended): an event whose candidate dtime (max of stored and incoming
dtime) reaches the candidate mtime tombstones the container, provided the
stored counts and the event totals fit in int32 (otherwise
`struct.pack('<i', ...)` raises and the transaction aborts, see the
counterexample): the account's object and byte counters drop by exactly the
stored counts (zero deltas skipped), the container row and its
forward-listing entry are cleared, the pending-delete marker records the new
dtime, and a retried deletion event leaves the account counters untouched. -/
theorem c2_deletion_effect :
    ∀ (s : State) (a : UArgs) (now now2 : Nat) (r : CtRow) (ar : AcctRow),
      bmem s.accts a.account = true →
      aGet s.containers (a.account, a.cname) = some r →
      aGet s.acctRows a.account = some ar →
      r.dtime < r.mtime →
      max r.mtime a.new_mtime ≤ max r.dtime a.new_dtime →
      r.objects ≤ ar.objects → r.bytes ≤ ar.bytes →
      ar.objects < 4294967296 → ar.bytes < 4294967296 →
      r.objects ≤ 2147483648 → r.bytes ≤ 2147483648 →
      a.new_total_objects < 2147483648 → a.new_total_bytes < 2147483648 →
      a.autocreate_container = true →
      aGet (_update_container s a now).2.acctRows a.account =
        some ⟨ar.objects - r.objects, ar.bytes - r.bytes, ar.ctime⟩ ∧
      aGet (_update_container s a now).2.containers (a.account, a.cname) = none ∧
      pmem (_update_container s a now).2.ctsIndex (a.account, a.cname) = false ∧
      aGet (_update_container s a now).2.toDelete (a.account, a.cname) =
        some (max r.dtime a.new_dtime) ∧
      (_update_container (_update_container s a now).2 a now2).2.acctRows =
        (_update_container s a now).2.acctRows := by
  intro s a now now2 r ar hacct hrow har hlive hdel ho hb hco hcb hro2 hrb2 hTO hTB hauto
  have hadv : a.new_mtime > r.mtime ∨ a.new_dtime > r.dtime := by omega
  set iO := (if r.objects ≠ 0 then -(r.objects : Int) else 0) with hiO
  set iB := (if r.bytes ≠ 0 then -(r.bytes : Int) else 0) with hiB
  set D := max r.dtime a.new_dtime with hD
  set sd : State :=
    { s with
      containers := aDel s.containers (a.account, a.cname),
      ctsIndex := pDel s.ctsIndex (a.account, a.cname),
      toDelete := aPut s.toDelete (a.account, a.cname) D } with hsd
  have hred := _update_container_present s a now r hacct hrow hauto
  rw [updateCore_delete s s a r hadv hdel] at hred
  rw [← hiO, ← hiB, ← hD, ← hsd] at hred
  have hiOb : -2147483648 ≤ iO ∧ iO < 2147483648 := by
    rw [hiO]; split <;> omega
  have hiBb : -2147483648 ≤ iB ∧ iB < 2147483648 := by
    rw [hiB]; split <;> omega
  obtain ⟨res, hres⟩ := afterBranch_some_of_bounds s sd a iO iB D true
    hiOb.1 hiOb.2 hiBb.1 hiBb.2 hTO hTB
  rw [hres] at hred
  have hred2 : _update_container s a now = res := by rw [hred]; rfl
  have hn : aGet sd.containers (a.account, a.cname) = none := aGet_aDel_self _ _
  have hcont : (_update_container s a now).2.containers =
      aDel s.containers (a.account, a.cname) := by
    rw [hred2, afterBranch_true_containers s sd a iO iB D hn res hres]
  have haccts : (_update_container s a now).2.accts = s.accts := by
    rw [hred2, afterBranch_accts s sd a iO iB D true res hres]
  have hcts : (_update_container s a now).2.ctsIndex =
      pDel s.ctsIndex (a.account, a.cname) := by
    rw [hred2, afterBranch_ctsIndex s sd a iO iB D true res hres]
  have htd : aGet (_update_container s a now).2.toDelete (a.account, a.cname) = some D := by
    rw [hred2, afterBranch_toDelete s sd a iO iB D true res hres]
    exact aGet_aPut_self _ _ _
  have hsdrows : aGet sd.acctRows a.account = some ar := har
  have hval := applyAcctIncs_val sd a.account iO iB ar hsdrows
  have hobj : (if iO ≠ 0 then addCell ar.objects iO else ar.objects) = ar.objects - r.objects := by
    rw [hiO]
    by_cases h : r.objects = 0
    · simp [h]
    · have hz : -(r.objects : Int) ≠ 0 := by simpa using h
      simp [h, hz, addCell]
      omega
  have hbyt : (if iB ≠ 0 then addCell ar.bytes iB else ar.bytes) = ar.bytes - r.bytes := by
    rw [hiB]
    by_cases h : r.bytes = 0
    · simp [h]
    · have hz : -(r.bytes : Int) ≠ 0 := by simpa using h
      simp [h, hz, addCell]
      omega
  have hrows : aGet (_update_container s a now).2.acctRows a.account =
      some ⟨ar.objects - r.objects, ar.bytes - r.bytes, ar.ctime⟩ := by
    rw [hred2, afterBranch_acctRows s sd a iO iB D true res hres, hval, hobj, hbyt]
  refine ⟨hrows, by rw [hcont]; exact aGet_aDel_self _ _,
          by rw [hcts]; exact pmem_pDel_self _ _, htd, ?_⟩
  -- the retried deletion event leaves the account rows untouched
  set s1 := (_update_container s a now).2 with hs1
  have hacct1 : bmem s1.accts a.account = true := by rw [haccts]; exact hacct
  have hrow1 : aGet s1.containers (a.account, a.cname) = none := by
    rw [hcont]; exact aGet_aDel_self _ _
  by_cases hnm : a.new_mtime < D
  · have hinner : _update_container s1 a now2 = (.no_container, s1) := by
      unfold _update_container
      simp [hacct1, hrow1, hauto, htd, hnm]
    rw [hinner]
  · have hpos : 0 < a.new_mtime := by omega
    have hinner : _update_container s1 a now2 =
        runTr s1 (updateCore s1 s1 a ⟨0, 0, 0, 0, none⟩) := by
      unfold _update_container
      simp [hacct1, hrow1, hauto, htd, hnm]
    rw [hinner, updateCore_delete s1 s1 a ⟨0, 0, 0, 0, none⟩ (Or.inl hpos) (by simp; omega)]
    obtain ⟨res2, hres2⟩ := afterBranch_some_of_bounds s1
      { s1 with
        containers := aDel s1.containers (a.account, a.cname),
        ctsIndex := pDel s1.ctsIndex (a.account, a.cname),
        toDelete := aPut s1.toDelete (a.account, a.cname)
          (max (CtRow.dtime ⟨0, 0, 0, 0, none⟩) a.new_dtime) } a
      (if CtRow.objects ⟨0, 0, 0, 0, none⟩ ≠ 0
        then -((CtRow.objects ⟨0, 0, 0, 0, none⟩ : Nat) : Int) else 0)
      (if CtRow.bytes ⟨0, 0, 0, 0, none⟩ ≠ 0
        then -((CtRow.bytes ⟨0, 0, 0, 0, none⟩ : Nat) : Int) else 0)
      (max (CtRow.dtime ⟨0, 0, 0, 0, none⟩) a.new_dtime) true
      (by norm_num) (by norm_num) (by norm_num) (by norm_num) hTO hTB
    rw [hres2]
    simp only [runTr]
    rw [afterBranch_acctRows _ _ _ _ _ _ _ res2 hres2]
    simp [applyAcctIncs]

/-- Witness for the C2 theorem at a concrete store. -/
theorem c2_witness :
    aGet (_update_container sW ⟨S "A", S "c", [], 6, 7, true, true, 0, 0⟩ 20).2.acctRows
        (S "A") = some ⟨7, 700, 1⟩ ∧
    aGet (_update_container sW ⟨S "A", S "c", [], 6, 7, true, true, 0, 0⟩ 20).2.containers
        (S "A", S "c") = none ∧
    pmem (_update_container sW ⟨S "A", S "c", [], 6, 7, true, true, 0, 0⟩ 20).2.ctsIndex
        (S "A", S "c") = false ∧
    aGet (_update_container sW ⟨S "A", S "c", [], 6, 7, true, true, 0, 0⟩ 20).2.toDelete
        (S "A", S "c") = some (max 2 7) ∧
    (_update_container
        (_update_container sW ⟨S "A", S "c", [], 6, 7, true, true, 0, 0⟩ 20).2
        ⟨S "A", S "c", [], 6, 7, true, true, 0, 0⟩ 21).2.acctRows =
      (_update_container sW ⟨S "A", S "c", [], 6, 7, true, true, 0, 0⟩ 20).2.acctRows :=
  c2_deletion_effect sW ⟨S "A", S "c", [], 6, 7, true, true, 0, 0⟩ 20 21
    ⟨5, 2, 3, 300, none⟩ ⟨10, 1000, 1⟩ (by decide) (by decide) (by decide) (by decide)
    (by decide) (by decide) (by decide) (by decide) (by decide) (by decide) (by decide)
    (by decide) (by decide) (by decide)

/-- A store whose container row and account cell hold the unsigned reading
4294967291 (the cell pattern left by driving the signed accumulator to -5):
within reach of the code via a negative `object_count` event, since FDB adds
wrap modulo 2^32 and reads are unsigned. -/
def s2c : State :=
  { accts := [S "A"],
    acctRows := [(S "A", ⟨4294967291, 1000, 1⟩)],
    containers := [((S "A", S "c"), ⟨5, 2, 4294967291, 300, none⟩)],
    ctsIndex := [(S "A", S "c")],
    toDelete := [], buckets := [], bsAcct := [], bsGlobal := [], metadataSp := [] }

/-- C2 counterexample: with a stored object count of 4294967291 (above 2^31),
the deletion event's account delta -4294967291 does not fit in int32, so
`struct.pack('<i', inc_objects)` (line 685) raises `struct.error`;
`catch_service_errors` does not catch it and the aborted transaction commits
nothing: every stored value is unchanged and no tombstone is written,
refuting the unamended claim. -/
theorem c2_oversized_count_crash :
    _update_container s2c ⟨S "A", S "c", [], 6, 7, true, true, 0, 0⟩ 20 =
      (.packError, s2c) ∧
    update_container s2c ⟨S "A", S "c", [], 6, 7, true, true, 0, 0⟩ 20 =
      (.structError, s2c) := by
  decide

/-! ### info_account counters, cell-operation semantics (C9) -/

/-- `info_account` restricted to the counters: presence check on the accounts
namespace, then the 4-byte cells are read with unsigned
`int.from_bytes(..., 'little')`. -/
def info_account_counters (s : State) (a : Bytes) : Option (Nat × Nat) :=
  if bmem s.accts a then (aGet s.acctRows a).map (fun r => (r.objects, r.bytes))
  else none

/-- One mutation of an account counter cell: an FDB atomic add with a
4-byte packed operand, or an overwrite with `struct.pack('<i', i)` (as the
refresh operations do). -/
inductive CellOp
  | addOp (i : Int)
  | setOp (i : Int)
  deriving DecidableEq, Repr

/-- The stored cell after a sequence of adds and overwrites, starting from a
cell value (as `_create_account` writes 0); `none` when an overwrite raises
`struct.error`. -/
def runCellOps : Nat → List CellOp → Option Nat
  | c, [] => some c
  | c, .addOp i :: t => runCellOps (addCell c i) t
  | _, .setOp i :: t =>
    match packI32 i with
    | some v => runCellOps v t
    | none => none

/-- The mathematical (signed, unbounded) accumulator value the specification
attributes to the same sequence of operations. -/
def specAccum : Int → List CellOp → Int
  | v, [] => v
  | v, .addOp i :: t => specAccum (v + i) t
  | _, .setOp i :: t => specAccum i t

theorem packI32_val (i : Int) (v : Nat) (h : packI32 i = some v) :
    (v : Int) = i % 4294967296 := by
  simp only [packI32] at h
  split at h
  · cases h
    omega
  · exact absurd h (by simp)

/-- C9 (amended): account counters are 4-byte little-endian cells, not int64
accumulators: every sequence of creates, atomic adds and pack('<i')
overwrites leaves the cell holding the signed accumulator value reduced
modulo 2^32, and `info_account` reports that unsigned residue verbatim  --
exact for values in [0, 2^32), wrong for negative values and values >= 2^32. -/
theorem c9_counters_are_32bit_cells :
    (∀ (ops : List CellOp) (v0 : Int) (c0 c : Nat),
        (c0 : Int) = v0 % 4294967296 →
        runCellOps c0 ops = some c →
        (c : Int) = (specAccum v0 ops) % 4294967296) ∧
    (∀ (s : State) (a : Bytes) (r : AcctRow),
        bmem s.accts a = true →
        aGet s.acctRows a = some r →
        info_account_counters s a = some (r.objects, r.bytes)) := by
  constructor
  · intro ops
    induction ops with
    | nil =>
      intro v0 c0 c h hrun
      cases hrun
      simpa [specAccum] using h
    | cons op t ih =>
      intro v0 c0 c h hrun
      cases op with
      | addOp i =>
        refine ih (v0 + i) (addCell c0 i) c ?_ hrun
        simp only [addCell]
        omega
      | setOp i =>
        simp only [runCellOps] at hrun
        cases hp : packI32 i with
        | none => rw [hp] at hrun; simp at hrun
        | some v =>
          rw [hp] at hrun
          exact ih i v c (packI32_val i v hp) hrun

  · intro s a r hacct hrow
    simp [info_account_counters, hacct, hrow]

/-- C9 counterexample: creating an account and applying a single atomic add
of -1 (a legal int64 value) makes `info_account` report 4294967295, not -1:
the stored cell is read unsigned. -/
theorem c9_negative_reported_unsigned :
    info_account_counters
        (acctAddObjects (create_account initState (some (S "A")) 1).2 (S "A") (-1))
        (S "A") = some (4294967295, 0) ∧
    runCellOps 0 [CellOp.addOp (-1)] = some 4294967295 ∧
    specAccum 0 [CellOp.addOp (-1)] = -1 ∧
    ((4294967295 : Int) ≠ -1) := by decide

/-- Witness for the C9 theorem: a value >= 2^31 (2147483648) reached by one
atomic add is reported exactly, and a present account row is reported. -/
theorem c9_witness :
    (((2147483648 : Nat) : Int) =
      (specAccum 0 [CellOp.addOp 2147483648]) % 4294967296) ∧
    info_account_counters sW (S "A") = some ((10 : Nat), (1000 : Nat)) :=
  ⟨c9_counters_are_32bit_cells.1 [CellOp.addOp 2147483648] 0 0 2147483648
      (by decide) (by decide),
   c9_counters_are_32bit_cells.2 sW (S "A") ⟨10, 1000, 1⟩ (by decide) (by decide)⟩

/-! ### update_account_metadata and catch_service_errors (C10) -/

/-- `_manage_metadata`: delete the listed keys, then set the given entries. -/
def _manage_metadata (s : State) (id_x : Bytes) (metadata : List (Bytes × Bytes))
    (to_delete : List Bytes) : State :=
  let md := to_delete.foldl (fun m k => aDel m (id_x, k)) s.metadataSp
  let md2 := metadata.foldl (fun m kv => aPut m (id_x, kv.1) kv.2) md
  { s with metadataSp := md2 }

inductive UamResult
  | noneRes | okRes (a : Bytes) | attrError
  deriving DecidableEq, Repr

/-- `update_account_metadata` (lines 256-277).  When the account row is
missing and autocreate is set, the source calls `create_account(_acct_id)`
with `_acct_id = None` (a no-op) and then unconditionally runs
`_acct_id.decode('utf-8')` on `None`, raising `AttributeError`. -/
def update_account_metadata (s : State) (autocreate : Bool) (account_id : Bytes)
    (metadata : List (Bytes × Bytes)) (to_delete : List Bytes) : UamResult × State :=
  if account_id = [] then (.noneRes, s)
  else
    match aGet s.acctRows account_id with
    | none =>
      if autocreate then (.attrError, (create_account s none 0).2)
      else (.noneRes, s)
    | some _ =>
      if metadata = [] ∧ to_delete = [] then (.okRes account_id, s)
      else (.okRes account_id, _manage_metadata s account_id metadata to_delete)

inductive PyErr | fdbErr | valueErr | attributeErr
  deriving DecidableEq, Repr

inductive Surfaced | serviceBusy | uncaught (e : PyErr)
  deriving DecidableEq, Repr

/-- `catch_service_errors`: only FDBError and ValueError are converted to
ServiceBusy; every other exception escapes untranslated. -/
def catch_service_errors : PyErr → Surfaced
  | .fdbErr => .serviceBusy
  | .valueErr => .serviceBusy
  | e => .uncaught e

/-- C10: for an account id with no stored account row, autocreate-enabled
update_account_metadata neither creates the account nor stores metadata
(the state is returned unchanged: create_account(None) is a no-op) and ends
in AttributeError, which catch_service_errors does not translate. -/
theorem c10_metadata_autocreate_attrerror :
    ∀ (s : State) (account_id : Bytes) (metadata : List (Bytes × Bytes))
      (to_delete : List Bytes),
      account_id ≠ [] →
      aGet s.acctRows account_id = none →
      update_account_metadata s true account_id metadata to_delete = (.attrError, s) ∧
      catch_service_errors .attributeErr = .uncaught .attributeErr := by
  intro s aid md td hne hnorow
  constructor
  · simp [update_account_metadata, hne, hnorow, create_account]
  · rfl

/-- Witness for the C10 theorem at a concrete store. -/
theorem c10_witness :
    update_account_metadata initState true (S "A") [(S "k", S "v")] [] =
      (.attrError, initState) ∧
    catch_service_errors .attributeErr = .uncaught .attributeErr :=
  c10_metadata_autocreate_attrerror initState (S "A") [(S "k", S "v")] []
    (by decide) (by decide)

/-! ### Physical key order, refresh machinery (C3, C6, C8) -/

/-- Byte-wise lexicographic strict order on keys. -/
def bytesLt : Bytes → Bytes → Bool
  | [], [] => false
  | [], _ :: _ => true
  | _ :: _, [] => false
  | x :: xs, y :: ys => if x < y then true else if y < x then false else bytesLt xs ys

def bytesLe (a b : Bytes) : Bool := ! bytesLt b a

/-- fdb tuple encoding of a string element body: embedded NUL bytes are
escaped as `00 FF`. -/
def esc : Bytes → Bytes
  | [] => []
  | b :: t => (if b = 0 then [0, 255] else [b]) ++ esc t

/-- The encoded element for a name inside its subspace: type tag 0x02, the
escaped bytes, the 0x00 terminator. -/
def nameKey (n : Bytes) : Bytes := 2 :: (esc n ++ [0])

/-- Relative physical key of one field of one entity. -/
def encKey (ctr fieldName : Bytes) : Bytes := nameKey ctr ++ nameKey fieldName

def insRow (p : Bytes × CtRow) : List (Bytes × CtRow) → List (Bytes × CtRow)
  | [] => [p]
  | q :: t => if bytesLt (nameKey p.1) (nameKey q.1) then p :: q :: t else q :: insRow p t

/-- The rows of one account's `container:` subspace in physical key order. -/
def sortedRowsOf (s : State) (acct : Bytes) : List (Bytes × CtRow) :=
  (s.containers.filterMap (fun p => if p.1.1 = acct then some (p.1.2, p.2) else none)).foldr
    insRow []

structure CKV where
  key : Bytes
  ctr : Bytes
  isObjects : Bool
  val : Nat
  deriving DecidableEq, Repr

def fBytes : Bytes := S "bytes"

def fObjects : Bytes := S "objects"

/-- The `bytes` and `objects` keys of each row in physical order; all other
keys of a row are skipped by every refresh scan (`unpacked_key not in
('bytes', 'objects')`). -/
def counterKVs (rows : List (Bytes × CtRow)) : List CKV :=
  rows.flatMap (fun p =>
    [⟨encKey p.1 fBytes, p.1, false, p.2.bytes⟩,
     ⟨encKey p.1 fObjects, p.1, true, p.2.objects⟩])

/-- `container.split('-')`. -/
def splitDash : Bytes → List Bytes
  | [] => [[]]
  | b :: t =>
    match splitDash t with
    | h :: r => if b = 45 then [] :: (h :: r) else (b :: h) :: r
    | [] => [[b]]

/-- `'-'.join(parts)`. -/
def joinDash : List Bytes → Bytes
  | [] => []
  | [x] => x
  | x :: y :: t => x ++ 45 :: joinDash (y :: t)

/-- Lines 1132-1144: split on '-', pop the timestamp and the hash, join the
rest; `none` models the IndexError raised when fewer than two components
exist. -/
def shardStrip (name : Bytes) : Option Bytes :=
  match (splitDash name).reverse with
  | _ts :: _hash :: rest => some (joinDash rest.reverse)
  | _ => none

/-- Overwrite a container row's counter cells (`struct.pack('<i', 0)`
writes).  The absent-row fallback is a bare key write, unreachable in the
flows exercised here because `cname` always names an existing row. -/
def ctSetCounters (s : State) (key : Bytes × Bytes) (o b : Nat) : State :=
  match aGet s.containers key with
  | some r => { s with containers := aPut s.containers key { r with objects := o, bytes := b } }
  | none => { s with containers := aPut s.containers key ⟨0, 0, o, b, none⟩ }

/-- Atomic add into a container row's counter cells. -/
def ctAddCounters (s : State) (key : Bytes × Bytes) (iO iB : Int) : State :=
  match aGet s.containers key with
  | some r =>
    { s with
      containers := aPut s.containers key
          { r with objects := addCell r.objects iO, bytes := addCell r.bytes iB } }
  | none =>
    { s with containers := aPut s.containers key ⟨0, 0, addCell 0 iO, addCell 0 iB, none⟩ }

structure ShardScanSt where
  count : Nat
  sumB : Nat
  sumO : Nat
  newMarker : Option Bytes
  ended : Bool
  found : Bool
  deriving DecidableEq, Repr

/-- The scan loop of `_refresh_sharded_ct` (lines 1127-1161) over the
counter keys: strip each shard name, keep those matching the logical name,
advance the marker, stop without summing once `2 * batch_size` keys were
counted, sum bytes always and objects only for non-`+segments` shards. -/
def shardScan (cname : Bytes) (batch_size : Nat) : List CKV → ShardScanSt → Option ShardScanSt
  | [], st => some st
  | kv :: rest, st =>
    match shardStrip kv.ctr with
    | none => none
    | some trunc =>
      if trunc ≠ cname then shardScan cname batch_size rest st
      else
        let st1 := { st with newMarker := some kv.ctr }
        if st1.count ≥ 2 * batch_size then some { st1 with ended := false }
        else
          let st2 := { st1 with found := true }
          let st3 := if ¬ kv.isObjects then { st2 with sumB := st2.sumB + kv.val } else st2
          let st4 := if kv.isObjects && ! hasSub segMark kv.ctr then
                       { st3 with sumO := st3.sumO + kv.val } else st3
          shardScan cname batch_size rest { st4 with count := st4.count + 1 }

/-- `_refresh_sharded_ct` (lines 1091-1177): one batch transaction of the
shard fold.  The outer `none` is a crash (IndexError from the name split, or
struct.error packing an oversized sum); otherwise the next marker and the
new state. -/
def _refresh_sharded_ct (s : State) (account_id cname : Bytes) (marker : Option Bytes)
    (batch_size : Nat) : Option (Option Bytes × State) :=
  if ¬ (bmem s.accts account_id = true) then some (none, s)
  else if ¬ (bmem s.accts (shardsPref ++ account_id) = true) then some (none, s)
  else
    let startTail := 2 :: (match marker with | none => cname | some m => m)
    let kvs := (counterKVs (sortedRowsOf s (shardsPref ++ account_id))).filter
      (fun kv => bytesLe startTail kv.key)
    match shardScan cname batch_size kvs ⟨0, 0, 0, none, true, false⟩ with
    | none => none
    | some st =>
      if st.found then
        match packI32 (st.sumO : Int), packI32 (st.sumB : Int) with
        | some _, some _ =>
          let s1 := if marker = none then ctSetCounters s (account_id, cname) 0 0 else s
          let s2 := ctAddCounters s1 (account_id, cname) (st.sumO : Int) (st.sumB : Int)
          some (if st.ended then none else st.newMarker, s2)
        | _, _ => none
      else some ((if st.ended then none else none), s)

/-- The `while True` loop around `_refresh_sharded_ct` for one container
(lines 478-484 and 509-514): stop when the returned marker is `None` or does
not advance; each batch is its own transaction. -/
def shardedLoop (account_id cname : Bytes) (batch_size : Nat) :
    Nat → State → Option Bytes → Option (State × Option Bytes)
  | 0, _, _ => none
  | fuel + 1, s, marker =>
    match _refresh_sharded_ct s account_id cname marker batch_size with
    | none => none
    | some (nm, s2) =>
      if nm = none ∨ nm = marker then some (s2, marker)
      else shardedLoop account_id cname batch_size fuel s2 nm

/-- The `for el in containers` loop: the running marker is carried from one
container to the next (it is not reset between containers). -/
def shardedFoldAll (account_id : Bytes) (batch_size : Nat) :
    List Bytes → State → Option Bytes → Option (State × Option Bytes)
  | [], s, m => some (s, m)
  | c :: t, s, m =>
    match shardedLoop account_id c batch_size (s.containers.length + 2) s m with
    | none => none
    | some (s2, m2) => shardedFoldAll account_id batch_size t s2 m2

/-- `_list_containers` (lines 1179-1208): `None` unless the shard account
exists; otherwise the account's container names in key order, optionally
filtered to those whose registered bucket equals `bucket_name`. -/
def _list_containers (s : State) (account_id : Bytes) (bucket_name : Option Bytes) :
    Option (List Bytes) :=
  if ¬ (bmem s.accts (shardsPref ++ account_id) = true) then none
  else some ((sortedRowsOf s account_id).filterMap (fun p =>
    match bucket_name with
    | none => some p.1
    | some b => if p.2.bucket = some b then some p.1 else none))

/-- Sum of the `objects` cells over the container rows of one account -- the
rows present are exactly the live (non-tombstoned) containers, since the
deletion branch physically clears tombstoned rows. -/
def liveObjectsSum (s : State) (acct : Bytes) : Nat :=
  (s.containers.filterMap (fun p => if p.1.1 = acct then some p.2 else none)).foldl
    (fun t r => t + r.objects) 0

/-- Sum of the `bytes` cells over the container rows of one account. -/
def liveBytesSum (s : State) (acct : Bytes) : Nat :=
  (s.containers.filterMap (fun p => if p.1.1 = acct then some p.2 else none)).foldl
    (fun t r => t + r.bytes) 0

/-- `_refresh_account` (lines 569-591): NotFound unless the account exists;
snapshot-sums the `bytes` and `objects` keys of the account's container
subspace and overwrites the account counters with `struct.pack('<i', sum)`
(`none` models NotFound or the out-of-int32 struct.error). -/
def _refresh_account (s : State) (account_id : Bytes) : Option State :=
  if ¬ (bmem s.accts account_id = true) then none
  else
    match packI32 ((liveBytesSum s account_id : Nat) : Int),
          packI32 ((liveObjectsSum s account_id : Nat) : Int) with
    | some vb, some vo =>
      let ar := (aGet s.acctRows account_id).getD ⟨0, 0, 0⟩
      some { s with acctRows := aPut s.acctRows account_id
                      { ar with objects := vo, bytes := vb } }
    | _, _ => none

/-- `refresh_account` (lines 499-516): run the sharded fold for every
container of the account, then the full recomputation. -/
def refresh_account (s : State) (account_id : Bytes) (batch_size : Nat) : Option State :=
  if account_id = [] then none
  else
    match _list_containers s account_id none with
    | none => _refresh_account s account_id
    | some cts =>
      match shardedFoldAll account_id batch_size cts s none with
      | none => none
      | some (s2, _) => _refresh_account s2 account_id

theorem packI32_nat (n v : Nat) (h : packI32 (n : Int) = some v) : v = n := by
  simp only [packI32] at h
  split at h
  · cases h
    omega
  · exact absurd h (by simp)

theorem _refresh_account_spec (s : State) (acct : Bytes) (s' : State)
    (h : _refresh_account s acct = some s') :
    s'.containers = s.containers ∧
    ∃ row, aGet s'.acctRows acct = some row ∧
      row.objects = liveObjectsSum s acct ∧ row.bytes = liveBytesSum s acct := by
  unfold _refresh_account at h
  split at h
  · exact absurd h (by simp)
  · split at h
    · next vb vo hvb hvo =>
      cases h
      refine ⟨rfl, ⟨_, aGet_aPut_self _ _ _, ?_, ?_⟩⟩
      · exact packI32_nat _ _ hvo
      · exact packI32_nat _ _ hvb
    · exact absurd h (by simp)

/-- C3: after any sequence of `update_container` transactions starting from
the empty store, a successful `refresh_account` leaves the account's stored
object and byte counters equal to the exact sums of the object and byte
cells over the account's (live, non-tombstoned) container rows; the counters
are overwritten with these sums, not incremented. -/
theorem c3_refresh_account_conservation :
    ∀ (events : List (UArgs × Nat)) (account_id : Bytes) (batch_size : Nat) (s' : State),
      refresh_account
          (events.foldl (fun st e => (_update_container st e.1 e.2).2) initState)
          account_id batch_size = some s' →
      ∃ row, aGet s'.acctRows account_id = some row ∧
        row.objects = liveObjectsSum s' account_id ∧
        row.bytes = liveBytesSum s' account_id := by
  intro events account_id batch_size s' h
  unfold refresh_account at h
  split at h
  · exact absurd h (by simp)
  · split at h
    · obtain ⟨hcont, row, hrow, ho, hb⟩ := _refresh_account_spec _ _ _ h
      exact ⟨row, hrow, by rw [ho]; simp [liveObjectsSum, hcont],
             by rw [hb]; simp [liveBytesSum, hcont]⟩
    · split at h
      · exact absurd h (by simp)
      · obtain ⟨hcont, row, hrow, ho, hb⟩ := _refresh_account_spec _ _ _ h
        exact ⟨row, hrow, by rw [ho]; simp [liveObjectsSum, hcont],
               by rw [hb]; simp [liveBytesSum, hcont]⟩

/-- Witness for the C3 theorem: one creating update then a refresh. -/
theorem c3_witness :
    ∃ row, aGet ((refresh_account
        ([(⟨S "A", S "c1", [], 1, 0, true, true, 5, 500⟩, 10)].foldl
          (fun st e => (_update_container st e.1 e.2).2) initState)
        (S "A") 100).getD initState).acctRows (S "A") = some row ∧
      row.objects = liveObjectsSum ((refresh_account
        ([(⟨S "A", S "c1", [], 1, 0, true, true, 5, 500⟩, 10)].foldl
          (fun st e => (_update_container st e.1 e.2).2) initState)
        (S "A") 100).getD initState) (S "A") ∧
      row.bytes = liveBytesSum ((refresh_account
        ([(⟨S "A", S "c1", [], 1, 0, true, true, 5, 500⟩, 10)].foldl
          (fun st e => (_update_container st e.1 e.2).2) initState)
        (S "A") 100).getD initState) (S "A") :=
  c3_refresh_account_conservation
    [(⟨S "A", S "c1", [], 1, 0, true, true, 5, 500⟩, 10)] (S "A") 100 _ (by decide)

/-! ### Bucket refresh (C6) -/

/-- Overwrite the bucket counters with packed values (lines 1055-1059). -/
def bucketSetCounters (s : State) (bname : Bytes) (o b : Nat) : State :=
  let br := (aGet s.buckets bname).getD ⟨none, none, none, none⟩
  { s with buckets := aPut s.buckets bname { br with objects := some o, bytes := some b } }

/-- Unconditional atomic add into the bucket counters (lines 1087-1088); an
absent cell is treated as zero by the ADD primitive. -/
def bucketAddCounters (s : State) (bname : Bytes) (iO iB : Int) : State :=
  let br := (aGet s.buckets bname).getD ⟨none, none, none, none⟩
  { s with
    buckets := aPut s.buckets bname
        { br with objects := some (addCell (br.objects.getD 0) iO),
                  bytes := some (addCell (br.bytes.getD 0) iB) } }

structure BktScanSt where
  count : Nat
  sumB : Nat
  sumO : Nat
  newMarker : Option Bytes
  deriving DecidableEq, Repr

/-- The scan loop of `_refresh_bucket` (lines 1061-1085): skip the marker
row's keys, sum only containers registered to the bucket, exclude
`+segments` containers from the object sum, advance the marker on every
scanned key, stop once `2 * batch_size` object keys were counted. -/
def bucketScan (s : State) (acct bname : Bytes) (marker : Option Bytes) (batch_size : Nat) :
    List CKV → BktScanSt → BktScanSt
  | [], st => st
  | kv :: rest, st =>
    if marker = some kv.ctr then bucketScan s acct bname marker batch_size rest st
    else
      let st1 :=
        if (aGet s.containers (acct, kv.ctr)).bind (fun r => r.bucket) = some bname then
          if ¬ kv.isObjects then { st with sumB := st.sumB + kv.val }
          else if ! hasSub segMark kv.ctr then
            { st with sumO := st.sumO + kv.val, count := st.count + 1 }
          else st
        else st
      let st2 := { st1 with newMarker := some kv.ctr }
      if st2.count = 2 * batch_size then st2
      else bucketScan s acct bname marker batch_size rest st2

/-- `_refresh_bucket` (lines 1030-1089): one batch of the bucket refresh.
The `present() is None` guard compares a bool to None and can never fire, so
a missing bucket row crashes on `.decode` instead (outer `none`, as does a
struct.error packing an oversized sum). -/
def _refresh_bucket (s : State) (bname : Bytes) (batch_size : Nat) (marker : Option Bytes) :
    Option (Option Bytes × State) :=
  match (aGet s.buckets bname).bind (fun b => b.account) with
  | none => none
  | some account_id =>
    let s1 := if marker = none then bucketSetCounters s bname 0 0 else s
    let startTail : Bytes := match marker with | none => [0] | some m => 2 :: m
    let kvs := (counterKVs (sortedRowsOf s1 account_id)).filter
      (fun kv => bytesLe startTail kv.key)
    let st := bucketScan s1 account_id bname marker batch_size kvs ⟨0, 0, 0, none⟩
    match packI32 (st.sumO : Int), packI32 (st.sumB : Int) with
    | some _, some _ =>
      some (st.newMarker, bucketAddCounters s1 bname (st.sumO : Int) (st.sumB : Int))
    | _, _ => none

/-- The `while True` loop of `refresh_bucket` over `_refresh_bucket`
batches (lines 487-492). -/
def bucketBatchLoop (bname : Bytes) (batch_size : Nat) :
    Nat → State → Option Bytes → Option State
  | 0, _, _ => none
  | fuel + 1, s, marker =>
    match _refresh_bucket s bname batch_size marker with
    | none => none
    | some (nm, s2) =>
      match nm with
      | none => some s2
      | some m => bucketBatchLoop bname batch_size fuel s2 (some m)

/-- `refresh_bucket` (lines 459-497): resolve the owning account through the
committed bucket row (plain `return` when absent), fold every shard group of
the bucket's containers, then run the batched bucket recomputation. -/
def refresh_bucket (s : State) (bucket_name : Bytes) (batch_size : Nat) : Option State :=
  match (aGet s.buckets bucket_name).bind (fun b => b.account) with
  | none => some s
  | some account_id =>
    let folded :=
      match _list_containers s account_id (some bucket_name) with
      | none => some (s, (none : Option Bytes))
      | some els => shardedFoldAll account_id batch_size els s none
    match folded with
    | none => none
    | some (s2, _) =>
      bucketBatchLoop bucket_name batch_size (s2.containers.length + 2) s2 none

def c6Hash1 : Bytes := S "aaaaaaaaaaaaaaaaaaaaaaaaaaaaaaaaaaaaaaaaaaaaaaaaaaaaaaaaaaaaaaaa"

def c6Hash2 : Bytes := S "bbbbbbbbbbbbbbbbbbbbbbbbbbbbbbbbbbbbbbbbbbbbbbbbbbbbbbbbbbbbbbbb"

def c6Ts : Bytes := S "0000000000000001"

def c6Shard1 : Bytes := S "logical" ++ [45] ++ c6Hash1 ++ [45] ++ c6Ts

def c6Shard2 : Bytes := S "logical" ++ [45] ++ c6Hash2 ++ [45] ++ c6Ts

/-- The C6 scenario store: logical container "logical" of bucket "logical"
under account "A", and two shard containers with object counts 3 and 4 under
the shard account ".shards_A". -/
def s6 : State :=
  { accts := [S "A", S ".shards_A"],
    acctRows := [(S "A", ⟨0, 0, 1⟩), (S ".shards_A", ⟨0, 0, 1⟩)],
    containers := [((S "A", S "logical"), ⟨5, 0, 0, 0, some (S "logical")⟩),
                   ((S ".shards_A", c6Shard1), ⟨5, 0, 3, 30, none⟩),
                   ((S ".shards_A", c6Shard2), ⟨5, 0, 4, 40, none⟩)],
    ctsIndex := [(S "A", S "logical")],
    toDelete := [],
    buckets := [(S "logical", ⟨some (S "A"), some 0, some 0, none⟩)],
    bsAcct := [(S "A", S "logical")],
    bsGlobal := [S "logical"],
    metadataSp := [] }

/-- C6: with exactly the two 64-char-hash/16-char-timestamp shards holding 3
and 4 objects under ".shards_A", `refresh_bucket` on the bucket of logical
container "logical" under "A" leaves that logical container with object
count 7 (and the bucket counter folds to 7 as well): the fold strips the
"-hash-timestamp" suffix, keeps the matching shards, zeroes the logical
counters on the first batch and atomically adds the shard sums. -/
theorem c6_shard_fold_scenario :
    (refresh_bucket s6 (S "logical") 10000).bind
        (fun t => (aGet t.containers (S "A", S "logical")).map (fun r => r.objects)) =
      some 7 ∧
    (refresh_bucket s6 (S "logical") 10000).bind
        (fun t => (aGet t.buckets (S "logical")).map (fun b => b.objects)) =
      some (some 7) := by
  decide

/-! ### C8: `+segments` containers -/

theorem bucket_objbytes_chain (s : State) (acct cname B : Bytes) (mC : Nat) (iO iB : Int)
    (br : BktRow) (hbr : aGet s.buckets B = some br) :
    (aGet (bucketTail (setBucketMtime (bucketCountersAdd s B iO iB) B mC)
        acct cname B).buckets B).map (fun x => (x.objects, x.bytes)) =
      some (match br.objects with | some v => some (addCell v iO) | none => some 0,
            match br.bytes with | some v => some (addCell v iB) | none => some 0) := by
  unfold bucketTail
  by_cases hsp : bPref shardsPref acct = true
  · by_cases hroot : B = cname
    · subst hroot
      simp [hsp, setBucketMtime, bucketCountersAdd, setBucketAccount, aGet_aPut_self, hbr]
    · simp [hsp, hroot, setBucketMtime, bucketCountersAdd, setBucketAccount,
            aGet_aPut_self, hbr]
  · by_cases hroot : B = cname
    · subst hroot
      simp [hsp, setBucketMtime, bucketCountersAdd, setBucketAccount, aGet_aPut_self, hbr]
    · simp [hsp, hroot, setBucketMtime, bucketCountersAdd, setBucketAccount,
            aGet_aPut_self, hbr]

theorem afterBranch_false_known_bucket (s0 s : State) (a : UArgs) (iO iB : Int) (mC : Nat)
    (B : Bytes) (r : CtRow)
    (hrow0 : aGet s0.containers (a.account, a.cname) = some r)
    (hbuck : r.bucket = some B) (hB : B ≠ []) (hbn : a.bucket_name = [])
    (hseg : hasSub segMark a.cname = true) (hmC : ¬ (mC = 0))
    (hpO : packI32 iO ≠ none) (hpB : packI32 iB ≠ none) :
    afterBranch s0 s a iO iB mC false =
      some (.updatedSt, bucketTail (setBucketMtime
        (bucketCountersAdd (applyAcctIncs s a.account iO iB) B 0 iB) B mC)
        a.account a.cname B) := by
  have hp0 : packI32 (0 : Int) = some 0 := by decide
  simp [afterBranch, bucketUpd, hrow0, hbuck, hbn, hB, hseg, hmC, hpO, hpB, hp0]

theorem c8_update_helper (s : State) (a : UArgs) (now : Nat) (r : CtRow) (ar : AcctRow)
    (br : BktRow) (po pb : Nat) (B : Bytes)
    (hacct : bmem s.accts a.account = true)
    (hrow : aGet s.containers (a.account, a.cname) = some r)
    (har : aGet s.acctRows a.account = some ar)
    (hbuck : r.bucket = some B)
    (hB : B ≠ [])
    (hbn : a.bucket_name = [])
    (hseg : hasSub segMark a.cname = true)
    (hauto : a.autocreate_container = true)
    (hmt : r.mtime < a.new_mtime)
    (hdl : max r.dtime a.new_dtime < max r.mtime a.new_mtime)
    (hbr : aGet s.buckets B = some br)
    (hbo : br.objects = some po) (hbb : br.bytes = some pb)
    (hpo : po < 4294967296) (haro : ar.objects < 4294967296)
    (hTO : a.new_total_objects < 2147483648)
    (hTB : a.new_total_bytes < 2147483648)
    (hro : r.objects ≤ 2147483648)
    (hrb : r.bytes ≤ 2147483648) :
    (aGet (_update_container s a now).2.buckets B).map (fun x => x.objects) =
      some (some po) ∧
    (aGet (_update_container s a now).2.buckets B).map (fun x => x.bytes) =
      some (some (addCell pb ((a.new_total_bytes : Int) - (r.bytes : Int)))) ∧
    (aGet (_update_container s a now).2.acctRows a.account).map (fun x => x.objects) =
      some (addCell ar.objects ((a.new_total_objects : Int) - (r.objects : Int))) := by
  have hpO : packI32 ((a.new_total_objects : Int) - (r.objects : Int)) ≠ none :=
    packI32_ne_none _ (by omega) (by omega)
  have hpB : packI32 ((a.new_total_bytes : Int) - (r.bytes : Int)) ≠ none :=
    packI32_ne_none _ (by omega) (by omega)
  have hred := _update_container_present s a now r hacct hrow hauto
  rw [updateCore_update s s a r hmt hdl hTO hTB] at hred
  rw [afterBranch_false_known_bucket s _ a _ _ _ B r hrow hbuck hB hbn hseg
    (by omega) hpO hpB] at hred
  simp only [runTr] at hred
  have hbB : aGet (applyAcctIncs
      { s with
        containers := aPut s.containers (a.account, a.cname)
            ⟨max r.mtime a.new_mtime, max r.dtime a.new_dtime,
              a.new_total_objects, a.new_total_bytes, r.bucket⟩,
        ctsIndex := pIns s.ctsIndex (a.account, a.cname) }
      a.account ((a.new_total_objects : Int) - (r.objects : Int))
      ((a.new_total_bytes : Int) - (r.bytes : Int))).buckets B = some br := by
    simp [hbr]
  have hchain := bucket_objbytes_chain _ a.account a.cname B (max r.mtime a.new_mtime) 0
      ((a.new_total_bytes : Int) - (r.bytes : Int)) br hbB
  simp only [hbo, hbb] at hchain
  rcases Option.map_eq_some'.mp hchain with ⟨x, hx, hxe⟩
  simp only [Prod.mk.injEq] at hxe
  obtain ⟨hxo, hxb⟩ := hxe
  refine ⟨?_, ?_, ?_⟩
  · rw [hred]
    simp only [hx, Option.map_some']
    rw [hxo, addCell_zero po hpo]
  · rw [hred]
    simp only [hx, Option.map_some']
    rw [hxb]
  · rw [hred]
    have hkb := afterBranch_false_known_bucket s
        { s with
          containers := aPut s.containers (a.account, a.cname)
              ⟨max r.mtime a.new_mtime, max r.dtime a.new_dtime,
                a.new_total_objects, a.new_total_bytes, r.bucket⟩,
          ctsIndex := pIns s.ctsIndex (a.account, a.cname) }
        a ((a.new_total_objects : Int) - (r.objects : Int))
        ((a.new_total_bytes : Int) - (r.bytes : Int)) (max r.mtime a.new_mtime) B r
        hrow hbuck hB hbn hseg (by omega) hpO hpB
    have hrows := afterBranch_acctRows _ _ _ _ _ _ _ _ hkb
    rw [hrows]
    have hval := applyAcctIncs_val
        { s with
          containers := aPut s.containers (a.account, a.cname)
              ⟨max r.mtime a.new_mtime, max r.dtime a.new_dtime,
                a.new_total_objects, a.new_total_bytes, r.bucket⟩,
          ctsIndex := pIns s.ctsIndex (a.account, a.cname) }
        a.account ((a.new_total_objects : Int) - (r.objects : Int))
        ((a.new_total_bytes : Int) - (r.bytes : Int)) ar har
    rw [hval]
    by_cases hz : ((a.new_total_objects : Int) - (r.objects : Int)) = 0
    · simp [hz, addCell_zero ar.objects haro]
    · simp [hz]

theorem bucketScan_segments_helper (s : State) (acct bname : Bytes) (batch_size : Nat)
    (ctr : Bytes) (r : CtRow)
    (h1 : aGet s.containers (acct, ctr) = some r)
    (h2 : r.bucket = some bname)
    (h3 : hasSub segMark ctr = true)
    (h4 : 0 < batch_size) :
    bucketScan s acct bname none batch_size (counterKVs [(ctr, r)]) ⟨0, 0, 0, none⟩ =
      ⟨0, r.bytes, 0, some ctr⟩ := by
  have h0 : ¬ ((0 : Nat) = 2 * batch_size) := by omega
  simp [bucketScan, counterKVs, h1, h2, h3, h0]

def c8ShardName : Bytes := S "c+segments" ++ [45] ++ c6Hash1 ++ [45] ++ c6Ts

theorem shardScan_segments_helper (batch_size o b : Nat) (h4 : 0 < batch_size) :
    shardScan (S "c+segments") batch_size
      (counterKVs [(c8ShardName, ⟨1, 0, o, b, none⟩)])
      ⟨0, 0, 0, none, true, false⟩ =
      some ⟨2, b, 0, some c8ShardName, true, true⟩ := by
  have hstrip : shardStrip c8ShardName = some (S "c+segments") := by decide
  have hseg : hasSub segMark c8ShardName = true := by decide
  have h0 : ¬ ((0 : Nat) ≥ 2 * batch_size) := by omega
  have h1 : ¬ ((1 : Nat) ≥ 2 * batch_size) := by omega
  simp [shardScan, counterKVs, hstrip, hseg, h0, h1]

/-- C8 (amended): a `+segments` container contributes a zero object delta but
the full byte delta to its bucket in `update_container` (provided the stored
counts and the event totals fit in int32, otherwise `struct.pack('<i', ...)`
raises and the transaction aborts), while the account-level delta still
includes its objects; the bucket-refresh scan and the shard fold exclude
`+segments` containers from their object sums while summing their bytes in
full.  (`_refresh_account`, by contrast, has no such filter -- see the
counterexample.) -/
theorem c8_segments_containers :
    (∀ (s : State) (a : UArgs) (now : Nat) (r : CtRow) (ar : AcctRow)
        (br : BktRow) (po pb : Nat) (B : Bytes),
        bmem s.accts a.account = true →
        aGet s.containers (a.account, a.cname) = some r →
        aGet s.acctRows a.account = some ar →
        r.bucket = some B → B ≠ [] → a.bucket_name = [] →
        hasSub segMark a.cname = true →
        a.autocreate_container = true →
        r.mtime < a.new_mtime →
        max r.dtime a.new_dtime < max r.mtime a.new_mtime →
        aGet s.buckets B = some br →
        br.objects = some po → br.bytes = some pb →
        po < 4294967296 → ar.objects < 4294967296 →
        a.new_total_objects < 2147483648 → a.new_total_bytes < 2147483648 →
        r.objects ≤ 2147483648 → r.bytes ≤ 2147483648 →
        (aGet (_update_container s a now).2.buckets B).map (fun x => x.objects) =
          some (some po) ∧
        (aGet (_update_container s a now).2.buckets B).map (fun x => x.bytes) =
          some (some (addCell pb ((a.new_total_bytes : Int) - (r.bytes : Int)))) ∧
        (aGet (_update_container s a now).2.acctRows a.account).map (fun x => x.objects) =
          some (addCell ar.objects ((a.new_total_objects : Int) - (r.objects : Int)))) ∧
    (∀ (s : State) (acct bname : Bytes) (batch_size : Nat) (ctr : Bytes) (r : CtRow),
        aGet s.containers (acct, ctr) = some r →
        r.bucket = some bname →
        hasSub segMark ctr = true →
        0 < batch_size →
        bucketScan s acct bname none batch_size (counterKVs [(ctr, r)]) ⟨0, 0, 0, none⟩ =
          ⟨0, r.bytes, 0, some ctr⟩) ∧
    (∀ (batch_size o b : Nat), 0 < batch_size →
        shardScan (S "c+segments") batch_size
          (counterKVs [(c8ShardName, ⟨1, 0, o, b, none⟩)])
          ⟨0, 0, 0, none, true, false⟩ =
          some ⟨2, b, 0, some c8ShardName, true, true⟩) :=
  ⟨fun s a now r ar br po pb B hacct hrow har hbuck hB hbn hseg hauto hmt hdl hbr hbo
      hbb hpo haro hTO hTB hro hrb =>
    c8_update_helper s a now r ar br po pb B hacct hrow har hbuck hB hbn hseg hauto
      hmt hdl hbr hbo hbb hpo haro hTO hTB hro hrb,
   fun s acct bname batch_size ctr r h1 h2 h3 h4 =>
    bucketScan_segments_helper s acct bname batch_size ctr r h1 h2 h3 h4,
   fun batch_size o b h4 => shardScan_segments_helper batch_size o b h4⟩

def s8c : State :=
  { accts := [S "A"],
    acctRows := [(S "A", ⟨0, 0, 1⟩)],
    containers := [((S "A", S "c+segments"), ⟨5, 0, 5, 500, none⟩)],
    ctsIndex := [(S "A", S "c+segments")],
    toDelete := [], buckets := [], bsAcct := [], bsGlobal := [], metadataSp := [] }

/-- C8 counterexample: `_refresh_account` has no `+segments` filter -- with a
single `+segments` container holding 5 objects, the refreshed account object
counter is 5, not the 0 the claim ("the refresh operations exclude such
containers from every object sum") predicts. -/
theorem c8_refresh_account_counts_segments :
    (_refresh_account s8c (S "A")).bind
        (fun t => (aGet t.acctRows (S "A")).map (fun x => x.objects)) = some 5 ∧
    (5 : Nat) ≠ 0 := by decide

def s8w : State :=
  { accts := [S "A"],
    acctRows := [(S "A", ⟨10, 1000, 1⟩)],
    containers := [((S "A", S "c+segments"), ⟨5, 2, 3, 300, some (S "B")⟩)],
    ctsIndex := [(S "A", S "c+segments")],
    toDelete := [],
    buckets := [(S "B", ⟨some (S "A"), some 50, some 5000, none⟩)],
    bsAcct := [], bsGlobal := [], metadataSp := [] }

/-- Witness for the C8 theorem at a concrete store. -/
theorem c8_witness :
    ((aGet (_update_container s8w ⟨S "A", S "c+segments", [], 6, 0, true, true, 4, 400⟩
        20).2.buckets (S "B")).map (fun x => x.objects) = some (some 50) ∧
      (aGet (_update_container s8w ⟨S "A", S "c+segments", [], 6, 0, true, true, 4, 400⟩
        20).2.buckets (S "B")).map (fun x => x.bytes) =
        some (some (addCell 5000 ((400 : Int) - (300 : Int)))) ∧
      (aGet (_update_container s8w ⟨S "A", S "c+segments", [], 6, 0, true, true, 4, 400⟩
        20).2.acctRows (S "A")).map (fun x => x.objects) =
        some (addCell 10 ((4 : Int) - (3 : Int)))) ∧
    bucketScan s8w (S "A") (S "B") none 7
        (counterKVs [(S "c+segments", ⟨5, 2, 3, 300, some (S "B")⟩)]) ⟨0, 0, 0, none⟩ =
      ⟨0, 300, 0, some (S "c+segments")⟩ ∧
    shardScan (S "c+segments") 1 (counterKVs [(c8ShardName, ⟨1, 0, 4, 40, none⟩)])
        ⟨0, 0, 0, none, true, false⟩ =
      some ⟨2, 40, 0, some c8ShardName, true, true⟩ :=
  ⟨c8_segments_containers.1 s8w ⟨S "A", S "c+segments", [], 6, 0, true, true, 4, 400⟩ 20
      ⟨5, 2, 3, 300, some (S "B")⟩ ⟨10, 1000, 1⟩ ⟨some (S "A"), some 50, some 5000, none⟩
      50 5000 (S "B") (by decide) (by decide) (by decide) (by decide) (by decide)
      (by decide) (by decide) (by decide) (by decide) (by decide) (by decide) (by decide)
      (by decide) (by decide) (by decide) (by decide) (by decide) (by decide) (by decide),
   c8_segments_containers.2.1 s8w (S "A") (S "B") 7 (S "c+segments")
      ⟨5, 2, 3, 300, some (S "B")⟩ (by decide) (by decide) (by decide) (by decide),
   c8_segments_containers.2.2 1 4 40 (by decide)⟩

/-! ### The listing engine `_raw_listing` (C4, C7) -/

structure PKV where
  key : Bytes
  ctr : Bytes
  fieldName : Bytes
  val : Nat
  deriving DecidableEq, Repr

def fBucket : Bytes := S "bucket"

def fDtime : Bytes := S "dtime"

def fMtime : Bytes := S "mtime"

def fName : Bytes := S "name"

/-- All physical keys of one container row in field order (`bucket` < `bytes`
< `dtime` < `mtime` < `name` < `objects`). -/
def rowKVs (cname : Bytes) (r : CtRow) : List PKV :=
  (match r.bucket with
   | some _ => [⟨encKey cname fBucket, cname, fBucket, 0⟩]
   | none => []) ++
  [⟨encKey cname fBytes, cname, fBytes, r.bytes⟩,
   ⟨encKey cname fDtime, cname, fDtime, r.dtime⟩,
   ⟨encKey cname fMtime, cname, fMtime, r.mtime⟩,
   ⟨encKey cname fName, cname, fName, 0⟩,
   ⟨encKey cname fObjects, cname, fObjects, r.objects⟩]

/-- The physical key list of a row list given in key order. -/
def physOf (rows : List (Bytes × CtRow)) : List PKV :=
  rows.flatMap (fun p => rowKVs p.1 p.2)

/-- One element of the returned raw list: `[name, objects, bytes, flag,
mtime]`, where `flag = 1` marks a delimiter prefix-group entry. -/
structure LEntry where
  name : Bytes
  objs : Nat
  byts : Nat
  isPfx : Nat
  mt : Nat
  deriving DecidableEq, Repr

def blankEntry : LEntry := ⟨[], 0, 0, 0, 0⟩

/-- The Python-3 value of `str(b'\xff')` appended to markers: the seven
characters `b`, `'`, backslash, `x`, `f`, `f`, `'`. -/
def reprFF : Bytes := [98, 39, 92, 120, 102, 102, 39]

def findIdxAux (d : Nat) : Bytes → Nat → Option Nat
  | [], _ => none
  | b :: t, i => if b = d then some i else findIdxAux d t (i + 1)

/-- `ctr.find(delimiter, start)` (`none` for -1). -/
def findFrom (d : Nat) (start : Nat) (l : Bytes) : Option Nat :=
  (findIdxAux d (l.drop start) 0).map (fun i => start + i)

structure BatchSt where
  results : List LEntry
  marker : Option Bytes
  currentCt : Option Bytes
  nbElems : Nat
  count : Nat
  cur : LEntry
  empty : Bool
  beyondPfx : Bool
  deriving DecidableEq, Repr

/-- The inner `for key, val in iterator` loop of `_raw_listing`
(lines 822-883), for calls without `end_marker` and with
`s3_buckets_only = False`. -/
def procKVs (limit : Nat) (pfx : Bytes) (origMarker : Option Bytes) (delim : Option Nat) :
    List PKV → BatchSt → BatchSt
  | [], st => st
  | kv :: rest, st =>
    if st.results.length ≥ limit then st
    else if pfx ≠ [] ∧ ¬ (bPref pfx kv.ctr = true) then
      { st with beyondPfx := true, marker := none }
    else
      let st := { st with marker := some (kv.ctr ++ reprFF) }
      if origMarker = some kv.ctr then procKVs limit pfx origMarker delim rest st
      else
        let changed := match st.currentCt with
          | none => false
          | some c => decide (c ≠ kv.ctr)
        let st := { st with currentCt := some kv.ctr }
        let st := if changed then { st with nbElems := 4 } else st
        let delimHit : Option Bytes :=
          match delim with
          | some d =>
            match findFrom d pfx.length kv.ctr with
            | some e => if e > 0 then some (kv.ctr.take (e + 1)) else none
            | none => none
          | none => none
        match delimHit with
        | some dirName =>
          let st := { st with marker := some (dirName ++ reprFF) }
          let st := if ¬ (origMarker = some dirName) then
                      { st with results := st.results ++ [⟨dirName, 0, 0, 1, 0⟩] }
                    else st
          { st with empty := false }
        | none =>
          let cur := { st.cur with name := kv.ctr }
          let cur := if kv.fieldName = fObjects then { cur with objs := kv.val } else cur
          let cur := if kv.fieldName = fBytes then { cur with byts := kv.val } else cur
          let cur := if kv.fieldName = fMtime then { cur with mt := kv.val } else cur
          let st := if kv.fieldName = fBucket then { st with nbElems := 5 } else st
          if st.count = st.nbElems then
            procKVs limit pfx origMarker delim rest
              { st with results := st.results ++ [cur], count := 0, cur := blankEntry,
                        empty := false }
          else
            procKVs limit pfx origMarker delim rest
              { st with count := st.count + 1, cur := cur, empty := false }

def rangeScanP (phys : List PKV) (mink maxk : Bytes) (lim : Nat) : List PKV :=
  (phys.filter (fun kv => bytesLe mink kv.key && bytesLt kv.key maxk)).take lim

structure RawSt where
  results : List LEntry
  marker : Option Bytes
  currentCt : Option Bytes
  nbElems : Nat
  beyondPfx : Bool
  deriving DecidableEq, Repr

/-- The `while len(results) < limit and not beyond_prefix` loop of
`_raw_listing` (lines 799-887), fuelled. -/
def rawLoop (phys : List PKV) (limit : Nat) (pfx : Bytes) (origMarker : Option Bytes)
    (delim : Option Nat) : Nat → RawSt → List LEntry × Option Bytes
  | 0, st => (st.results, st.marker)
  | fuel + 1, st =>
    if st.results.length ≥ limit ∨ st.beyondPfx then (st.results, st.marker)
    else
      let localLimit := (limit - st.results.length + 1) * 5
      let mink0 : Bytes := if pfx ≠ [] then 2 :: pfx else [0]
      let mink := match st.marker with
        | some m => if m ≠ [] ∧ (pfx = [] ∨ bytesLe pfx m) then 2 :: m else mink0
        | none => mink0
      let kvs := rangeScanP phys mink [255] localLimit
      let bst := procKVs limit pfx origMarker delim kvs
        ⟨st.results, st.marker, st.currentCt, st.nbElems, 0, blankEntry, true, st.beyondPfx⟩
      if bst.empty then (bst.results, bst.marker)
      else rawLoop phys limit pfx origMarker delim fuel
        ⟨bst.results, bst.marker, bst.currentCt, bst.nbElems, bst.beyondPfx⟩

/-- `_raw_listing` (lines 777-888) over the physical keys of one account's
container subspace, for calls without `end_marker` and with
`s3_buckets_only = False` (the only forms the listing claims exercise). -/
def _raw_listing (phys : List PKV) (limit : Nat) (pfx : Bytes) (marker : Option Bytes)
    (delim : Option Nat) : List LEntry × Option Bytes :=
  rawLoop phys limit pfx marker delim ((phys.length + 2) * (limit + 2))
    ⟨[], marker, none, 4, false⟩

/-- `list_containers` (lines 427-440): delegates to `_raw_listing` and
returns only the raw list (the next marker is discarded at this layer). -/
def list_containers (rows : List (Bytes × CtRow)) (limit : Nat) (pfx : Bytes)
    (marker : Option Bytes) (delim : Option Nat) : List LEntry :=
  (_raw_listing (physOf rows) limit pfx marker delim).1

def c4Rows : List (Bytes × CtRow) :=
  [(S "a", ⟨3, 1, 4, 40, none⟩), (S "aZ", ⟨3, 1, 6, 60, none⟩)]

/-- C4 at its failing input: live containers "a" and "aZ", empty prefix,
limit 1, starting from a null marker.  The first page is `["a"]` with next
marker `"a" + "b'\xff'"` (the textual repr of a bytes literal, which sorts
before `"aZ"`); the second call returns an empty page with the same non-null
marker, so "aZ" is omitted forever and the marker never becomes null. -/
theorem c4_pagination_omits_and_never_null :
    _raw_listing (physOf c4Rows) 1 [] none none =
      ([⟨S "a", 4, 40, 0, 3⟩], some (S "a" ++ reprFF)) ∧
    _raw_listing (physOf c4Rows) 1 [] (some (S "a" ++ reprFF)) none =
      ([], some (S "a" ++ reprFF)) := by
  decide

def c7Rows : List (Bytes × CtRow) :=
  [(S "a/x", ⟨3, 1, 4, 40, none⟩), (S "a/y", ⟨3, 1, 6, 60, none⟩),
   (S "b", ⟨3, 1, 8, 80, none⟩)]

/-- C7 at its failing input: listing `"a/x", "a/y", "b"` with delimiter '/',
empty prefix and no marker returns the prefix-group entry `"a/"` over and
over (three times at limit 3) and never reaches `"b"`: the in-call marker
`"a/" + "b'\xff'"` fails to jump past the group because `"a/x"` sorts after
it. -/
theorem c7_delimiter_repeats_group :
    list_containers c7Rows 3 [] none (some 47) =
      [⟨S "a/", 0, 0, 1, 0⟩, ⟨S "a/", 0, 0, 1, 0⟩, ⟨S "a/", 0, 0, 1, 0⟩] := by
  decide
